import Mathlib

/-!
# Verification of the deduplidog duplicate-finding engine

A shallow embedding of the core of `deduplidog` (file `deduplidog/deduplidog.py`):
the configuration validation (`Deduplidog.check`), the key builder used for
candidate bucketing (`Deduplidog.perform` / `Deduplidog._process_file`), the
plain and media similarity matchers (`_find_similar`, `_find_similar_media`,
`image_similar`), the affect decision engine (`_affect`) with its action
executors (`_rename`, `_delete`, `_replace_with_original`, `_change_file_date`),
the per-file pipeline (`_process_file`) and the retrying outer loop
(`_loop_files`).

Modelling conventions:
* Paths are strings; the filesystem is an association list from path to a
  `Stat` record.  `st_mtime` is modelled in whole seconds as an `Int`
  (Python uses a float; no claim under verification depends on sub-second
  timestamps).  File content is abstracted by its CRC32 value, its perceptual
  image hash and its video frame count, which the Python code obtains from
  collaborator libraries (`zlib.crc32`, `imagehash.average_hash`,
  `cv2`/`imageio` frame counting).
* `str.casefold()` / `str.lower()` are modelled as per-character lowering,
  and the user-supplied `strip_suffix` regular expression substitution is
  modelled as an opaque string transformer (the regex engine is a stdlib
  collaborator).
* Console output, progress bars and logging are ignored; the structured
  change log (`Deduplidog.changes`) is modelled precisely, with each textual
  annotation represented by a constructor of `Ann`.
* Python `set` iteration order (the candidate buckets) is modelled as the
  original-file-list order.
-/

namespace Dedup

/-! ## String and path helpers (`pathlib` fragment used by the code) -/

/-- Per-character lowering; models Python `str.casefold()` / `str.lower()`
on the character sets the program manipulates. -/
def lowerStr (s : String) : String := String.mk (s.data.map Char.toLower)

/-- Final path component, i.e. Python `Path.name`. -/
def pathName (p : String) : String :=
  String.mk ((p.data.reverse.takeWhile (· ≠ '/')).reverse)

/-- Directory part of a path (no trailing slash), i.e. Python `Path.parent`. -/
def pathParent (p : String) : String :=
  String.mk ((p.data.reverse.dropWhile (· ≠ '/')).reverse.dropLast)

/-- Python `Path.with_name`: replace the final component. -/
def withName (p n : String) : String := pathParent p ++ "/" ++ n

/-- Python `Path.suffix` of a file name: the last dot segment of the final
component, empty for names such as `".bashrc"`, `"a."` or `"ab"`. -/
def nameSuffix (n : String) : String :=
  let cs := n.data
  if cs.contains '.' then
    let afterDot := cs.reverse.takeWhile (· ≠ '.')
    let i := cs.length - 1 - afterDot.length
    if 0 < i ∧ i < cs.length - 1 then String.mk (cs.drop i) else ""
  else ""

/-- Python `Path.stem` of a file name: the name without its suffix. -/
def nameStem (n : String) : String :=
  String.mk (n.data.take (n.data.length - (nameSuffix n).data.length))

/-- Python `str.replace(" ", c)`. -/
def replaceSpaces (c : String) (s : String) : String :=
  String.mk (s.data.foldr (fun ch acc => (if ch = ' ' then c.data else [ch]) ++ acc) [])

/-- One application of the regex `\(\d+\)$` on a reversed character list:
returns the remaining (still reversed) characters when the list ends in
`(digits)`. -/
def stripCounterRev : List Char → Option (List Char)
  | ')' :: rest =>
    let digits := rest.takeWhile Char.isDigit
    let rest2 := rest.dropWhile Char.isDigit
    match digits, rest2 with
    | [], _ => none
    | _ :: _, '(' :: rest3 => some rest3
    | _ :: _, _ => none
  | _ => none

/-- `Deduplidog.ending_counter.sub("", stem)`: strip one trailing `(digits)`
group (the `$` anchor admits at most one match). -/
def endingCounterSub (s : String) : String :=
  match stripCounterRev s.data.reverse with
  | some r => String.mk r.reverse
  | none => s

/-! ## File metadata and the filesystem -/

/-- The per-file attributes the engine reads.  `size`/`mtime` model
`os.stat`; `crc` abstracts the CRC32 of the content; `imghash`, `frames` and
`exifTimes` abstract the collaborator metadata extractors of
`helpers.FileMetadata`. -/
structure Stat where
  size : Nat := 0
  mtime : Int := 0
  crc : Nat := 0
  symlink : Bool := false
  imghash : Int := 0
  frames : Int := 0
  exifTimes : List Int := []
deriving DecidableEq, Repr

/-- A filesystem: association list from path to attributes. -/
abbrev FS := List (String × Stat)

namespace FS

/-- `stat` of an existing file, `none` when the path does not exist. -/
def stat? (fs : FS) (p : String) : Option Stat :=
  (List.find? (fun e => e.1 = p) fs).map (·.2)

/-- `stat` with a default record; the call sites only use it on paths the
engine has verified (or assumes) to exist. -/
def statD (fs : FS) (p : String) : Stat := (fs.stat? p).getD {}

/-- Python `Path.exists()`. -/
def hasFile (fs : FS) (p : String) : Bool := (fs.stat? p).isSome

/-- Remove a path. -/
def remove (fs : FS) (p : String) : FS :=
  List.filter (fun e => e.1 ≠ p) fs

/-- Create or overwrite a path with the given attributes. -/
def setStat (fs : FS) (p : String) (s : Stat) : FS :=
  if fs.hasFile p then List.map (fun e => if e.1 = p then (p, s) else e) fs
  else fs ++ [(p, s)]

/-- `os.rename` / `Path.rename`. -/
def renameFile (fs : FS) (a b : String) : FS :=
  match fs.stat? a with
  | some s => (fs.remove a).setStat b s
  | none => fs

/-- `Path.unlink`. -/
def unlink (fs : FS) (p : String) : FS := fs.remove p

/-- `os.utime(p, (t, t))`: set the modification time. -/
def utime (fs : FS) (p : String) (t : Int) : FS :=
  match fs.stat? p with
  | some s => fs.setStat p { s with mtime := t }
  | none => fs

/-- `shutil.copy2 src dst`: copy content and metadata onto `dst`. -/
def copy2 (fs : FS) (src dst : String) : FS :=
  match fs.stat? src with
  | some s => fs.setStat dst { s with symlink := false }
  | none => fs

end FS

/-! ## Configuration -/

/-- The raw `tolerate_hour` argument: `bool | int | tuple[int, ...] | anything
else` (e.g. a float, rejected as "Use whole hours only"). -/
inductive THInput where
  | bool (b : Bool)
  | int (n : Int)
  | tup (l : List Int)
  | other
deriving DecidableEq, Repr

/-- The `Deduplidog` option surface after `check` has normalised
`tolerate_hour` into a tuple (kept here as a list of whole hours, since the
runtime check accepts int tuples of any arity). -/
structure Config where
  execute : Bool := false
  bashify : Bool := false
  rename : Bool := false
  delete : Bool := false
  replace_with_original : Bool := false
  set_both_to_older_date : Bool := false
  treat_bigger_as_original : Bool := false
  skip_bigger : Bool := false
  skip_empty : Bool := false
  neglect_warning : Bool := false
  casefold : Bool := false
  checksum : Bool := false
  tolerate_hour : List Int := [0, 0]
  ignore_name : Bool := false
  ignore_date : Bool := false
  ignore_size : Bool := false
  space2char : Option String := none
  strip_end_counter : Bool := false
  strip_sfx : Option (String → String) := none
  work_file_stem_shortened : Option Nat := none
  invert_selection : Bool := false
  media_magic : Bool := false
  accepted_frame_delta : Nat := 1
  accepted_img_hash_diff : Nat := 1
  img_compare_date : Bool := false
  suffixes : Option (List String) := none
  fail_on_error : Bool := false

/-- The pre-validation configuration: identical to `Config` but with the raw
`tolerate_hour` value, plus the directory arguments `check` also inspects. -/
structure RawConfig where
  work_dir : String := "/w"
  original_dir : String := "/o"
  execute : Bool := false
  bashify : Bool := false
  rename : Bool := false
  delete : Bool := false
  replace_with_original : Bool := false
  set_both_to_older_date : Bool := false
  treat_bigger_as_original : Bool := false
  skip_bigger : Bool := false
  skip_empty : Bool := false
  neglect_warning : Bool := false
  casefold : Bool := false
  checksum : Bool := false
  tolerate_hour : THInput := .bool false
  ignore_name : Bool := false
  ignore_date : Bool := false
  ignore_size : Bool := false
  space2char : Option String := none
  strip_end_counter : Bool := false
  strip_sfx : Option (String → String) := none
  work_file_stem_shortened : Option Nat := none
  invert_selection : Bool := false
  media_magic : Bool := false
  accepted_frame_delta : Nat := 1
  accepted_img_hash_diff : Nat := 1
  img_compare_date : Bool := false
  suffixes : Option (List String) := none
  fail_on_error : Bool := false

/-- The `match self.tolerate_hour` normalisation in `Deduplidog.check`
(deduplidog.py lines 292-300).  Note that in Python `True` is matched first,
while `False` — being an `int` — falls into the `isinstance(n, int)` case and
becomes `(-abs(0), abs(0)) = (0, 0)`, a (truthy) tuple. -/
def normalizeTolerate : THInput → Option (List Int)
  | .bool true => some [-1, 1]
  | .bool false => some [0, 0]
  | .int n => some [-(n.natAbs : Int), (n.natAbs : Int)]
  | .tup l => some l
  | .other => none

/-- The `match self.rename, self.replace_with_original, self.delete`
statement (lines 327-337): anything but zero or one action raises. -/
def actionConflict : Bool → Bool → Bool → Bool
  | false, false, false => false
  | true, false, false => false
  | false, true, false => false
  | false, false, true => false
  | _, _, _ => true

/-- The validated configuration: the raw fields with `tolerate_hour`
replaced by its normalised tuple. -/
def toConfig (r : RawConfig) (th : List Int) : Config :=
  { execute := r.execute, bashify := r.bashify, rename := r.rename,
    delete := r.delete, replace_with_original := r.replace_with_original,
    set_both_to_older_date := r.set_both_to_older_date,
    treat_bigger_as_original := r.treat_bigger_as_original,
    skip_bigger := r.skip_bigger, skip_empty := r.skip_empty,
    neglect_warning := r.neglect_warning, casefold := r.casefold,
    checksum := r.checksum, tolerate_hour := th,
    ignore_name := r.ignore_name, ignore_date := r.ignore_date,
    ignore_size := r.ignore_size, space2char := r.space2char,
    strip_end_counter := r.strip_end_counter, strip_sfx := r.strip_sfx,
    work_file_stem_shortened := r.work_file_stem_shortened,
    invert_selection := r.invert_selection, media_magic := r.media_magic,
    accepted_frame_delta := r.accepted_frame_delta,
    accepted_img_hash_diff := r.accepted_img_hash_diff,
    img_compare_date := r.img_compare_date, suffixes := r.suffixes,
    fail_on_error := r.fail_on_error }

/-- `Deduplidog.check` (lines 266-341), restricted to its raising/normalising
behaviour: `none` models an `AssertionError` escaping before any file is
touched; `some cfg` is the validated configuration with `tolerate_hour`
replaced by its normalised tuple. -/
def checkValidation (r : RawConfig) : Option Config :=
  if r.work_dir = "" then none
  else if r.skip_bigger && !r.media_magic then none
  else if r.invert_selection &&
      (r.replace_with_original || r.treat_bigger_as_original || r.set_both_to_older_date) then none
  else
    match normalizeTolerate r.tolerate_hour with
    | none => none
    | some th =>
      if r.ignore_name && r.ignore_date && r.ignore_size then none
      else if !r.media_magic && r.ignore_size && r.checksum then none
      else if actionConflict r.rename r.replace_with_original r.delete then none
      else some (toConfig r th)

/-! ## The key builder -/

/-- Space substitution transform (`stem.replace(" ", self.space2char)` when
`space2char` is set). -/
def space2charT (cfg : Config) (s : String) : String :=
  match cfg.space2char with
  | some c => replaceSpaces c s
  | none => s

/-- Trailing-counter strip transform (`self.ending_counter.sub("", stem)`
when `strip_end_counter` is set). -/
def stripCounterT (cfg : Config) (s : String) : String :=
  if cfg.strip_end_counter then endingCounterSub s else s

/-- Custom suffix-regex strip transform (`re.sub(self.strip_suffix + "$", "",
stem)` when `strip_suffix` is set); the substitution itself is the opaque
collaborator function stored in the configuration. -/
def stripSfxT (cfg : Config) (s : String) : String :=
  match cfg.strip_sfx with
  | some f => f s
  | none => s

/-- Case-folding transform (`stem.casefold()` when `casefold` is set). -/
def casefoldT (cfg : Config) (s : String) : String :=
  if cfg.casefold then lowerStr s else s

/-- Truncation transform (Python slice `stem[:n]`, identity for `None`). -/
def truncateT (n : Option Nat) (s : String) : String :=
  match n with
  | some k => String.mk (s.data.take k)
  | none => s

/-- The work-file stem transformation of `_process_file` (deduplidog.py lines
378-386), as written in the source: four sequential in-place updates. -/
def workFileStem (cfg : Config) (stem0 : String) : String :=
  let stem1 := match cfg.space2char with
    | some c => replaceSpaces c stem0
    | none => stem0
  let stem2 := if cfg.strip_end_counter then endingCounterSub stem1 else stem1
  let stem3 := match cfg.strip_sfx with
    | some f => f stem2
    | none => stem2
  if cfg.casefold then lowerStr stem3 else stem3

/-- The key under which `perform` buckets an original file (line 222-223):
`Path(str(p).casefold()).stem[:work_file_stem_shortened]`. -/
def origKey (cfg : Config) (p : String) : String :=
  let pCase := if cfg.casefold then lowerStr p else p
  truncateT cfg.work_file_stem_shortened (nameStem (pathName pCase))

/-- The Key Builder as the specification words it: the five transforms
composed in the fixed order substitute-spaces, strip trailing counter, strip
custom suffix, case-fold, truncate to the shortened length. -/
def specKeyBuilder (cfg : Config) (stem : String) : String :=
  truncateT cfg.work_file_stem_shortened
    (casefoldT cfg (stripSfxT cfg (stripCounterT cfg (space2charT cfg stem))))

/-! ## The change log -/

/-- The textual annotations the engine attaches to a compared pair, one
constructor per message template of the source (humanised number formatting
abstracted to the underlying quantity). -/
inductive Ann where
  | sizeWarning (delta : Nat)
  | dateWarning (delta : Int)
  | skippedOnWarning
  | renamable
  | renaming
  | deletable
  | deleting
  | replacable
  | replacing
  | redatable (oldDate newDate : Int)
  | redating (oldDate newDate : Int)
deriving DecidableEq, Repr

/-- One `Change` of the source: an ordered two-key mapping from the work file
and the original file of a compared pair to their annotation lists. -/
structure ChangeEntry where
  workPath : String
  origPath : String
  workAnns : List Ann := []
  origAnns : List Ann := []
deriving DecidableEq, Repr

/-- `change[p].append(a)`. -/
def ChangeEntry.add (c : ChangeEntry) (p : String) (a : Ann) : ChangeEntry :=
  if p = c.workPath then { c with workAnns := c.workAnns ++ [a] }
  else if p = c.origPath then { c with origAnns := c.origAnns ++ [a] }
  else c

/-! ## Engine state -/

/-- The mutable run state of a `Deduplidog` instance: the filesystem it acts
on plus the bookkeeping attributes set up in `__post_init__`.
`metadataKeys` tracks the keys of the metadata cache as far as eviction is
concerned (lazy insertion on read access is not modelled). -/
structure DogState where
  fs : FS
  changes : List ChangeEntry := []
  passed_away : List String := []
  size_affected : Nat := 0
  affected_count : Nat := 0
  warning_count : Nat := 0
  ignored_count : Nat := 0
  having_multiple_candidates : List (String × List String) := []
  metadataKeys : List String := []
deriving DecidableEq, Repr

/-! ## The plain similarity matcher (`_find_similar`, lines 575-583) -/

/-- `self.tolerate_hour[0]` on the normalised tuple. -/
def tolerateLo (cfg : Config) : Int := cfg.tolerate_hour.getD 0 0

/-- `self.tolerate_hour[1]` on the normalised tuple. -/
def tolerateHi (cfg : Config) : Int := cfg.tolerate_hour.getD 1 0

/-- The match predicate of `_find_similar` exactly as the source writes it
(lines 579-582), with the hour delta computed as the rational
`(work.st_mtime - original.st_mtime) / 3600`:

`(ignore_date or wst.st_mtime == ost.st_mtime or tolerate_hour and
tolerate_hour[0] <= (wst.st_mtime - ost.st_mtime)/3600 <= tolerate_hour[1])
and (ignore_size or wst.st_size == ost.st_size and (not checksum or
crc(original) == crc(work_file)))`.

The empty-tuple check models Python truthiness of `self.tolerate_hour`. -/
def plainMatch (cfg : Config) (fs : FS) (work orig : String) : Prop :=
  let wst := fs.statD work
  let ost := fs.statD orig
  (cfg.ignore_date = true ∨ wst.mtime = ost.mtime ∨
    (cfg.tolerate_hour ≠ [] ∧
      (tolerateLo cfg : ℚ) ≤ ((wst.mtime : ℚ) - (ost.mtime : ℚ)) / 3600 ∧
      ((wst.mtime : ℚ) - (ost.mtime : ℚ)) / 3600 ≤ (tolerateHi cfg : ℚ))) ∧
  (cfg.ignore_size = true ∨
    (wst.size = ost.size ∧ (cfg.checksum = true → wst.crc = ost.crc)))

/-- Executable form of `plainMatch` with the division by 3600 cleared to
integer comparisons (`3600 > 0`); `plainMatchB_correct` proves it coincides
with the source formula. -/
def plainMatchB (cfg : Config) (fs : FS) (work orig : String) : Bool :=
  let wst := fs.statD work
  let ost := fs.statD orig
  (cfg.ignore_date || wst.mtime == ost.mtime ||
    (decide (cfg.tolerate_hour ≠ []) &&
      tolerateLo cfg * 3600 ≤ wst.mtime - ost.mtime &&
      wst.mtime - ost.mtime ≤ tolerateHi cfg * 3600)) &&
  (cfg.ignore_size ||
    (wst.size == ost.size && (!cfg.checksum || wst.crc == ost.crc)))

/-- `_find_similar`: return the first candidate satisfying the date+size
predicate (the `for`/`return` loop of lines 577-583). -/
def findSimilar (cfg : Config) (fs : FS) (work : String) : List String → Option String
  | [] => none
  | o :: rest =>
    if plainMatchB cfg fs work o then some o else findSimilar cfg fs work rest

/-! ## The media similarity matcher (`_find_similar_media`, `image_similar`) -/

def IMAGE_SUFFIXES : List String :=
  [".jpg", ".jpeg", ".png", ".gif", ".avif", ".webp", ".heic", ".avif"]

def VIDEO_SUFFIXES : List String :=
  [".mp4", ".mov", ".avi", ".vob", ".mts", ".3gp", ".mpg", ".mpeg", ".wmv", ".hevc"]

/-- `image_similar` (lines 605-631): optional timestamp gate (file mtimes or
any EXIF capture time within one hour), then perceptual-hash distance
threshold. -/
def imageSimilar (cfg : Config) (origStat workStat : Stat) : Bool :=
  let timeOk :=
    if cfg.img_compare_date then
      decide ((workStat.mtime - origStat.mtime).natAbs ≤ 3600) ||
        origStat.exifTimes.any (fun t => (workStat.mtime - t).natAbs ≤ 3600)
    else false
  if timeOk || !cfg.img_compare_date then
    (origStat.imghash - workStat.imghash).natAbs ≤ cfg.accepted_img_hash_diff
  else false

/-- The per-candidate similarity test of `_find_similar_media` (lines
593-599): perceptual hash for images, frame-count delta for videos. -/
def mediaSimilar (cfg : Config) (fs : FS) (work : String) (comparingImage : Bool)
    (orig : String) : Bool :=
  if comparingImage then imageSimilar cfg (fs.statD orig) (fs.statD work)
  else ((fs.statD work).frames - (fs.statD orig).frames).natAbs ≤ cfg.accepted_frame_delta

/-- `_find_similar_media` (lines 585-603): skip vanished candidates, stop at
the first similar one.  (The source would raise `NameError` when the
candidate list is empty or entirely vanished — here that degenerate case is
folded into "no match".) -/
def findSimilarMedia (cfg : Config) (fs : FS) (work : String) (comparingImage : Bool) :
    List String → Option String
  | [] => none
  | o :: rest =>
    if !fs.hasFile o then findSimilarMedia cfg fs work comparingImage rest
    else if mediaSimilar cfg fs work comparingImage o then some o
    else findSimilarMedia cfg fs work comparingImage rest

/-! ## The affect decision engine (`_affect`, lines 431-496) -/

/-- Role resolution (lines 434, 442-445): the work file is affected and the
original kept, except that under `media_magic` with `treat_bigger_as_original`
a strictly larger work file swaps the roles. -/
def resolveRoles (cfg : Config) (fs : FS) (work orig : String) : String × String :=
  if cfg.media_magic && cfg.treat_bigger_as_original &&
      decide ((fs.statD work).size > (fs.statD orig).size) then (orig, work)
  else (work, orig)

/-- The `SIZE WARNING` branch (lines 446-448): under `media_magic`, when the
swap policy is off but the work file is strictly larger, the byte delta to be
reported (and the pair is marked warned on the work file). -/
def sizeWarnOf (cfg : Config) (fs : FS) (work orig : String) : Option Nat :=
  if cfg.media_magic && !cfg.treat_bigger_as_original &&
      decide ((fs.statD work).size > (fs.statD orig).size) then
    some ((fs.statD work).size - (fs.statD orig).size)
  else none

/-- The `DATE WARNING` guard (lines 464-470): without `set_both_to_older_date`,
a kept file at least one second newer than the affected file marks the pair
warned on the kept file. -/
def dateWarnOf (cfg : Config) (fs : FS) (affected other : String) : Option String :=
  if !cfg.set_both_to_older_date &&
      decide ((fs.statD affected).mtime ≠ (fs.statD other).mtime) &&
      decide ((fs.statD other).mtime > (fs.statD affected).mtime) &&
      decide ((fs.statD other).mtime - (fs.statD affected).mtime ≥ 1) then some other
  else none

/-- The final value of the `warning` variable of `_affect`: the date warning
overwrites the size warning when both fire. -/
def warningOf (cfg : Config) (fs : FS) (work orig : String) : Option String :=
  let roles := resolveRoles cfg fs work orig
  match dateWarnOf cfg fs roles.1 roles.2 with
  | some w => some w
  | none => if (sizeWarnOf cfg fs work orig).isSome then some work else none

/-- The change entry of `_affect` after line 448: the fresh two-key mapping
(line 433) with the `SIZE WARNING` annotation when it fires. -/
def baseEntry (cfg : Config) (fs : FS) (work orig : String) : ChangeEntry :=
  match sizeWarnOf cfg fs work orig with
  | some d =>
    ChangeEntry.add { workPath := work, origPath := orig } work (.sizeWarning d)
  | none => { workPath := work, origPath := orig }

/-- `_change_file_date` (lines 550-564): annotate with `redating`
(`redatable` when not executing), and under `execute` rewrite the mtime and
evict the path from the metadata cache. -/
def changeFileDate (cfg : Config) (st : DogState) (path : String)
    (oldDate newDate : Int) (c : ChangeEntry) : DogState × ChangeEntry :=
  if cfg.execute then
    ({ st with fs := st.fs.utime path newDate,
               metadataKeys := st.metadataKeys.filter (· ≠ path) },
     c.add path (.redating oldDate newDate))
  else (st, c.add path (.redatable oldDate newDate))

/-- The date-reconciliation `match` of `_affect` (lines 456-470): with
`set_both_to_older_date` and differing mtimes, the newer of the two files is
redated to the older timestamp; otherwise the `DATE WARNING` annotation is
recorded when its guard holds. -/
def dateRecon (cfg : Config) (st : DogState) (affected other : String)
    (c : ChangeEntry) : DogState × ChangeEntry :=
  if cfg.set_both_to_older_date &&
      decide ((st.fs.statD affected).mtime ≠ (st.fs.statD other).mtime) then
    if (st.fs.statD other).mtime < (st.fs.statD affected).mtime then
      changeFileDate cfg st affected
        (st.fs.statD affected).mtime (st.fs.statD other).mtime c
    else
      changeFileDate cfg st other
        (st.fs.statD other).mtime (st.fs.statD affected).mtime c
  else
    match dateWarnOf cfg st.fs affected other with
    | some _ =>
      (st, c.add other
        (.dateWarning ((st.fs.statD other).mtime - (st.fs.statD affected).mtime)))
    | none => (st, c)

/-- `_rename` (lines 498-517).  `Except.error ()` models the
`FileExistsError` raised on a collision under `fail_on_error`.  Note that on
a non-fatal collision the rename itself is skipped but the path is still
added to `passed_away` and evicted from the metadata cache. -/
def renameStep (cfg : Config) (st : DogState) (af : String) (c : ChangeEntry) :
    Except Unit (DogState × ChangeEntry) :=
  if cfg.execute || cfg.bashify then
    let target := withName af ("✓" ++ pathName af)
    if cfg.execute && st.fs.hasFile target then
      if cfg.fail_on_error then .error ()
      else
        .ok ({ st with passed_away := st.passed_away ++ [af],
                       metadataKeys := st.metadataKeys.filter (· ≠ af) },
             c.add af .renamable)
    else
      let fsMsg := if cfg.execute then (st.fs.renameFile af target, Ann.renaming)
                   else (st.fs, Ann.renamable)
      .ok ({ st with fs := fsMsg.1,
                     passed_away := st.passed_away ++ [af],
                     metadataKeys := st.metadataKeys.filter (· ≠ af) },
           c.add af fsMsg.2)
  else .ok (st, c.add af .renamable)

/-- `_delete` (lines 519-529). -/
def deleteStep (cfg : Config) (st : DogState) (af : String) (c : ChangeEntry) :
    DogState × ChangeEntry :=
  if cfg.execute || cfg.bashify then
    let fsMsg := if cfg.execute then (st.fs.unlink af, Ann.deleting)
                 else (st.fs, Ann.deletable)
    ({ st with fs := fsMsg.1,
               passed_away := st.passed_away ++ [af],
               metadataKeys := st.metadataKeys.filter (· ≠ af) },
     c.add af fsMsg.2)
  else (st, c.add af .deletable)

/-- `_replace_with_original` (lines 531-548): copy the kept file over the
affected one (into the affected file's directory under the kept file's name
when the names differ, deleting the affected file), and evict the affected
path from the metadata cache. -/
def replaceStep (cfg : Config) (st : DogState) (af other : String) (c : ChangeEntry) :
    DogState × ChangeEntry :=
  let sameName := pathName other = pathName af
  let fsMsg :=
    if sameName then
      if cfg.execute then (st.fs.copy2 other af, Ann.replacing) else (st.fs, Ann.replacable)
    else
      if cfg.execute then
        (((st.fs.copy2 other (withName af (pathName other)))).unlink af, Ann.replacing)
      else (st.fs, Ann.replacable)
  ({ st with fs := fsMsg.1,
             metadataKeys := st.metadataKeys.filter (· ≠ af) },
   c.add af fsMsg.2)

/-- The action block of `_affect` (lines 478-486): the three `if`s invoking
`_rename` / `_delete` / `_replace_with_original` in that order. -/
def runActions (cfg : Config) (st2 : DogState) (affected other : String)
    (c2 : ChangeEntry) : Except Unit (DogState × ChangeEntry) :=
  match (if cfg.rename then renameStep cfg st2 affected c2 else .ok (st2, c2)) with
  | .error e => .error e
  | .ok sc3 =>
    let sc4 := if cfg.delete then deleteStep cfg sc3.1 affected sc3.2 else sc3
    let sc5 := if cfg.replace_with_original
               then replaceStep cfg sc4.1 affected other sc4.2 else sc4
    .ok sc5

/-- The non-skipped arm of the warning gate: increment the size/affected
counters (lines 475-476), run the enabled actions (lines 478-486), append the
change entry and count `warnCount` warnings (lines 488-490). -/
def affectAct (cfg : Config) (st1 : DogState) (affected other : String)
    (c2 : ChangeEntry) (warnCount : Nat) : Except Unit DogState :=
  match runActions cfg
      { st1 with
        size_affected := st1.size_affected + (st1.fs.statD affected).size,
        affected_count := st1.affected_count + 1 } affected other c2 with
  | .error e => .error e
  | .ok sc5 =>
    .ok { sc5.1 with
          changes := sc5.1.changes ++ [sc5.2],
          warning_count := sc5.1.warning_count + warnCount }

/-- The warning gate of `_affect` (lines 472-490): `if warning and not
self.neglect_warning`, the actions are replaced by a single "skipped on
warning" annotation; either way the entry is appended and a set warning is
counted. -/
def affectTail (cfg : Config) (st1 : DogState) (affected other : String)
    (c2 : ChangeEntry) (warning : Option String) : Except Unit DogState :=
  match warning with
  | some w =>
    if cfg.neglect_warning then affectAct cfg st1 affected other c2 1
    else
      .ok { st1 with changes := st1.changes ++ [c2.add w .skippedOnWarning],
                     warning_count := st1.warning_count + 1 }
  | none => affectAct cfg st1 affected other c2 0

/-- `_affect` (lines 431-496): role resolution, size warning, `skip_bigger`
early return, date reconciliation, then the warning gate and actions
(`affectTail`).  `Except.error ()` propagates the rename collision under
`fail_on_error`. -/
def affect (cfg : Config) (st : DogState) (work orig : String) :
    Except Unit DogState :=
  if work = orig then .ok st
  else
    let fs0 := st.fs
    let roles := resolveRoles cfg fs0 work orig
    let affected := roles.1
    let other := roles.2
    let c1 := baseEntry cfg fs0 work orig
    if cfg.media_magic && cfg.skip_bigger &&
        decide ((fs0.statD affected).size > (fs0.statD other).size) then .ok st
    else
      let stC := dateRecon cfg st affected other c1
      affectTail cfg stC.1 affected other stC.2 (warningOf cfg fs0 work orig)

/-! ## The per-file pipeline (`_process_file`, lines 372-429) -/

/-- The candidate generator of line 402-404: the whole original file list
when name matching is ignored, otherwise the bucket of originals sharing the
work file's transformed stem; the work file itself and passed-away paths are
excluded. -/
def workCandidates (cfg : Config) (fileList : List String) (passed : List String)
    (wf stem : String) : List String :=
  (if cfg.ignore_name then fileList
   else fileList.filter (fun p => origKey cfg p = stem)).filter
    (fun p => p ≠ wf && !passed.contains p)

/-- The dispatch of lines 421-429: act on a found original (or on
`/dev/null` under `invert_selection` when nothing was found), otherwise
record the work file under `having_multiple_candidates` when at least two
candidates failed. -/
def dispatch (cfg : Config) (st : DogState) (wf : String)
    (original : Option String) (candidates : List String) :
    Except Unit DogState :=
  match original, cfg.invert_selection with
  | some o, false => affect cfg st wf o
  | none, true => affect cfg st wf "/dev/null"
  | _, _ =>
    if candidates.length > 1 then
      .ok { st with having_multiple_candidates :=
              st.having_multiple_candidates ++ [(wf, candidates)] }
    else .ok st

/-- `_process_file` (lines 372-429): skip already-marked files (counting them
as ignored), build the transformed stem, skip symlinks / unwanted suffixes /
empty files, build the candidate list for the active strategy, run the
matcher and dispatch. -/
def processFile (cfg : Config) (fileList : List String) (st : DogState)
    (wf : String) : Except Unit DogState :=
  if (pathName wf).data.head? = some '✓' then
    .ok { st with ignored_count := st.ignored_count + 1 }
  else
    let stem := workFileStem cfg (nameStem (pathName wf))
    if (st.fs.statD wf).symlink ||
        (match cfg.suffixes with
         | some l => !l.contains (lowerStr (nameSuffix (pathName wf)))
         | none => false) then .ok st
    else if cfg.skip_empty && decide ((st.fs.statD wf).size = 0) then .ok st
    else
      let base := workCandidates cfg fileList st.passed_away wf stem
      if cfg.media_magic then
        let comparingImage := IMAGE_SUFFIXES.contains (lowerStr (nameSuffix (pathName wf)))
        let candidates := base.filter (fun p =>
          (if comparingImage then IMAGE_SUFFIXES else VIDEO_SUFFIXES).contains
            (lowerStr (nameSuffix (pathName p))))
        dispatch cfg st wf (findSimilarMedia cfg st.fs wf comparingImage candidates)
          candidates
      else
        let candidates :=
          if cfg.casefold then
            base.filter (fun p =>
              lowerStr (nameSuffix (pathName p)) = lowerStr (nameSuffix (pathName wf)))
          else base.filter (fun p => nameSuffix (pathName p) = nameSuffix (pathName wf))
        dispatch cfg st wf (findSimilar cfg st.fs wf candidates) candidates

/-! ## Run loop (`perform` / `_loop_files`) -/

/-- `build_originals` (lines 633-639): all non-symlink files below the
original directory, optionally filtered by suffix, in traversal (here:
filesystem list) order. -/
def buildOriginals (fs : FS) (originalDir : String) (suffixes : Option (List String)) :
    List String :=
  (fs.filter (fun e =>
    originalDir.data.isPrefixOf e.1.data && !e.2.symlink &&
      (match suffixes with
       | some l => l.contains (lowerStr (nameSuffix (pathName e.1)))
       | none => true))).map (·.1)

/-- The work-file enumeration of `_loop_files` (lines 344-346): every file
below the work directory, in traversal (here: filesystem list) order. -/
def workFilesOf (fs : FS) (workDir : String) : List String :=
  (fs.filter (fun e => workDir.data.isPrefixOf e.1.data)).map (·.1)

/-- The main loop over work files (the happy path of `_loop_files`: the
per-file exception handling is modelled separately by `tryFile`). -/
def loopFiles (cfg : Config) (fileList : List String) (st : DogState) :
    List String → Except Unit DogState
  | [] => .ok st
  | wf :: rest =>
    match processFile cfg fileList st wf with
    | .error e => .error e
    | .ok st' => loopFiles cfg fileList st' rest

/-- One full run on a filesystem: build the original list, then process every
work file (fresh bookkeeping state, as a fresh `Deduplidog` invocation). -/
def runOnce (cfg : Config) (fs : FS) (workDir originalDir : String) :
    Except Unit DogState :=
  loopFiles cfg (buildOriginals fs originalDir cfg.suffixes) { fs := fs }
    (workFilesOf fs workDir)

/-! ## The retry wrapper of `_loop_files` (lines 354-370) -/

/-- Outcome of one `_process_file` call, as seen by the `try` of
`_loop_files`: success, `Image.DecompressionBombError`, any other
`Exception`, or `KeyboardInterrupt`. -/
inductive AttemptResult where
  | ok
  | bomb
  | err
  | interrupt
deriving DecidableEq, Repr

/-- What the `for attempt in range(5)` loop did for one work file. -/
inductive FileRunResult where
  /-- `_process_file` returned; `break` after `attempts` tries. -/
  | processed (attempts : Nat)
  /-- `Image.DecompressionBombError`: printed and `break`, never retried. -/
  | bombFail (attempts : Nat)
  /-- re-`raise` under `fail_on_error`: the whole run aborts. -/
  | aborted (attempts : Nat)
  /-- `KeyboardInterrupt`: the loop returns. -/
  | interrupted (attempts : Nat)
  /-- five failed attempts; the recorded backoff sleeps (in seconds) were
  `1 * attempt` each, and the loop moves on to the next file. -/
  | gaveUp (sleeps : List Nat)
deriving DecidableEq, Repr

/-- The attempt loop for one work file, `fuel` attempts remaining, `i` the
current value of `attempt`, `sleeps` the backoff seconds so far. -/
def tryFileAux (failOnError : Bool) (outcome : Nat → AttemptResult) :
    Nat → Nat → List Nat → FileRunResult
  | 0, _, sleeps => .gaveUp sleeps
  | fuel + 1, i, sleeps =>
    match outcome i with
    | .ok => .processed (i + 1)
    | .bomb => .bombFail (i + 1)
    | .err =>
      if failOnError then .aborted (i + 1)
      else tryFileAux failOnError outcome fuel (i + 1) (sleeps ++ [1 * i])
    | .interrupt => .interrupted (i + 1)

/-- `for attempt in range(5)` around `_process_file`, with the per-attempt
behaviour abstracted as `outcome`. -/
def tryFile (failOnError : Bool) (outcome : Nat → AttemptResult) : FileRunResult :=
  tryFileAux failOnError outcome 5 0 []

/-! ## Derived definitions used by the verification -/

/-- The remediation-action annotations: the messages of `_rename`, `_delete`
and `_replace_with_original`. -/
def Ann.isAction : Ann → Bool
  | .renamable => true
  | .renaming => true
  | .deletable => true
  | .deleting => true
  | .replacable => true
  | .replacing => true
  | _ => false

/-- Whether a change entry records any remediation action. -/
def ChangeEntry.hasAction (c : ChangeEntry) : Bool :=
  (c.workAnns ++ c.origAnns).any Ann.isAction

/-- The change entry `_affect` has accumulated when it reaches the warning
gate, in the case `set_both_to_older_date = false` (no redating): the size
warning, then the date warning when its guard holds. -/
def affectEntry (cfg : Config) (fs : FS) (work orig : String) : ChangeEntry :=
  let roles := resolveRoles cfg fs work orig
  match dateWarnOf cfg fs roles.1 roles.2 with
  | some _ =>
    (baseEntry cfg fs work orig).add roles.2
      (.dateWarning ((fs.statD roles.2).mtime - (fs.statD roles.1).mtime))
  | none => baseEntry cfg fs work orig

/-- Equality of the bookkeeping counters and logs of two engine states (the
fields the action executors never touch). -/
def SameBook (a b : DogState) : Prop :=
  a.size_affected = b.size_affected ∧ a.affected_count = b.affected_count ∧
  a.changes = b.changes ∧ a.warning_count = b.warning_count ∧
  a.having_multiple_candidates = b.having_multiple_candidates ∧
  a.ignored_count = b.ignored_count

/-! ### Concrete instances used as witnesses and counterexamples -/

/-- C1 witness data: `tolerate_hour=(-1,1)`, hour delta exactly `-1`. -/
def cfgC1w : Config := { tolerate_hour := [-1, 1] }

def fsC1w : FS :=
  [("/w/a.jpg", { size := 7, mtime := 20 }), ("/o/a.jpg", { size := 7, mtime := 3620 })]

/-- C1 counterexample data: asymmetric `tolerate_hour=(1,2)` and two files
with exactly equal mtimes. -/
def cfgC1x : Config := { tolerate_hour := [1, 2] }

def fsC1x : FS :=
  [("/w/b.jpg", { size := 5, mtime := 50 }), ("/o/b.jpg", { size := 5, mtime := 50 })]

/-- C2 counterexample data: `media_magic` size anomaly (work file larger)
with `set_both_to_older_date` on, `execute` on, warnings not neglected. -/
def cfgC2x : Config :=
  { execute := true, rename := true, media_magic := true, set_both_to_older_date := true }

def fsC2x : FS :=
  [("/w/p.jpg", { size := 200, mtime := 100 }), ("/o/p.jpg", { size := 100, mtime := 50 })]

def stC2x : DogState := { fs := fsC2x }

/-- C2 witness data: a date anomaly (original one hour newer), plain mode. -/
def cfgC2w : Config := { execute := true, rename := true }

def fsC2w : FS :=
  [("/w/q.jpg", { size := 9, mtime := 100 }), ("/o/q.jpg", { size := 9, mtime := 3700 })]

def stC2w : DogState := { fs := fsC2w }

/-- C3 witness data: media mode, `treat_bigger_as_original`, work file
strictly larger, `skip_bigger` off. -/
def cfgC3w : Config := { media_magic := true, treat_bigger_as_original := true }

def fsC3w : FS :=
  [("/w/r.jpg", { size := 300, mtime := 10 }), ("/o/r.jpg", { size := 100, mtime := 10 })]

def stC3w : DogState := { fs := fsC3w }

/-- C4 counterexample data: `invert_selection` with two candidates and a
matching first candidate. -/
def cfgC4x : Config := { invert_selection := true }

def fsC4x : FS :=
  [("/w/a.jpg", { size := 5, mtime := 10 }), ("/o/a.jpg", { size := 5, mtime := 10 }),
   ("/o/x/a.jpg", { size := 5, mtime := 10 })]

def listC4x : List String := ["/o/a.jpg", "/o/x/a.jpg"]

/-- C5 data: rename collision (the ✓-target already exists). -/
def cfgC5 : Config := { execute := true, rename := true }

def fsC5 : FS := [("/w/a.jpg", { size := 1 }), ("/w/✓a.jpg", { size := 1 })]

def stC5 : DogState := { fs := fsC5, metadataKeys := ["/w/a.jpg"] }

def entryC5 : ChangeEntry := { workPath := "/w/a.jpg", origPath := "/o/a.jpg" }

/-- C6 counterexample data: `media_magic` with `checksum` and `ignore_size`
(accepted by the code), and an int triple for `tolerate_hour` (accepted by
the code). -/
def rawC6a : RawConfig := { media_magic := true, checksum := true, ignore_size := true }

def rawC6b : RawConfig := { tolerate_hour := .tup [1, 2, 3] }

/-- C6 witness data: `skip_bigger` without `media_magic` (rejected). -/
def rawC6w : RawConfig := { skip_bigger := true }

/-- C7 counterexample data: rename+redate run in which the first run's
`set_both_to_older_date` rewrite of the original's mtime lets a second run
match (and remediate) a work file the first run left unmatched. -/
def cfgC7 : Config :=
  { execute := true, rename := true, set_both_to_older_date := true,
    tolerate_hour := [-1, 1] }

def fsC7 : FS :=
  [("/o/a.jpg", { size := 100, mtime := 3620 }),
   ("/w/v/a.jpg", { size := 100, mtime := 0 }),
   ("/w/x/a.jpg", { size := 100, mtime := 20 })]

/-- First run of the C7 scenario. -/
def runC7a : DogState := (runOnce cfgC7 fsC7 "/w" "/o").toOption.getD { fs := [] }

/-- Second run of the C7 scenario, on the filesystem the first run left. -/
def runC7b : DogState := (runOnce cfgC7 runC7a.fs "/w" "/o").toOption.getD { fs := [] }

/-- C10 witness data: `invert_selection` with no candidate and a `/dev/null`
mtime more than a second newer than the work file's. -/
def cfgC10w : Config := { invert_selection := true, execute := true, rename := true }

def fsC10w : FS :=
  [("/w/z.jpg", { size := 4, mtime := 10 }), ("/dev/null", { size := 0, mtime := 500 })]

def stC10w : DogState := { fs := fsC10w }

/-! ## Theorems -/

theorem rat_div_le_iff (a d b : Int) :
    ((a : ℚ) ≤ (d : ℚ) / 3600 ∧ (d : ℚ) / 3600 ≤ (b : ℚ)) ↔
      (a * 3600 ≤ d ∧ d ≤ b * 3600) := by
  have h : (0 : ℚ) < 3600 := by norm_num
  rw [le_div_iff₀ h, div_le_iff₀ h]
  constructor
  · rintro ⟨h1, h2⟩
    constructor
    · exact_mod_cast h1
    · exact_mod_cast h2
  · rintro ⟨h1, h2⟩
    constructor
    · exact_mod_cast h1
    · exact_mod_cast h2

theorem plainMatchB_correct (cfg : Config) (fs : FS) (work orig : String) :
    plainMatchB cfg fs work orig = true ↔ plainMatch cfg fs work orig := by
  unfold plainMatchB plainMatch
  rcases rat_div_le_iff (tolerateLo cfg) ((fs.statD work).mtime - (fs.statD orig).mtime)
    (tolerateHi cfg) with ⟨h1, h2⟩
  constructor
  · intro h
    simp only [Bool.and_eq_true, Bool.or_eq_true, beq_iff_eq, Bool.not_eq_true',
      decide_eq_true_eq, ne_eq] at h
    obtain ⟨hd, hs⟩ := h
    constructor
    · rcases hd with (h | h) | h
      · exact Or.inl h
      · exact Or.inr (Or.inl h)
      · refine Or.inr (Or.inr ⟨h.1.1, ?_⟩)
        have := h2 ⟨h.1.2, h.2⟩
        push_cast at this ⊢
        exact ⟨this.1, this.2⟩
    · rcases hs with h | h
      · exact Or.inl h
      · refine Or.inr ⟨h.1, fun hc => ?_⟩
        rcases h.2 with h' | h'
        · rw [hc] at h'; cases h'
        · exact h'
  · intro ⟨hd, hs⟩
    simp only [Bool.and_eq_true, Bool.or_eq_true, beq_iff_eq, Bool.not_eq_true',
      decide_eq_true_eq, ne_eq]
    constructor
    · rcases hd with h | h | h
      · exact Or.inl (Or.inl h)
      · exact Or.inl (Or.inr h)
      · refine Or.inr ⟨⟨h.1, ?_⟩, ?_⟩
        · have := h1 (by push_cast; exact ⟨h.2.1, h.2.2⟩)
          exact this.1
        · have := h1 (by push_cast; exact ⟨h.2.1, h.2.2⟩)
          exact this.2
    · rcases hs with h | h
      · exact Or.inl h
      · refine Or.inr ⟨h.1, ?_⟩
        by_cases hc : cfg.checksum = true
        · exact Or.inr (h.2 hc)
        · exact Or.inl (Bool.not_eq_true _ ▸ hc)

/-- First-match characterisation of the `_find_similar` loop. -/
theorem findSimilar_eq_some (cfg : Config) (fs : FS) (work : String) :
    ∀ (cands : List String) (p : String),
      findSimilar cfg fs work cands = some p ↔
        ∃ l1 l2, cands = l1 ++ p :: l2 ∧ plainMatch cfg fs work p ∧
          ∀ q ∈ l1, ¬ plainMatch cfg fs work q := by
  intro cands
  induction cands with
  | nil =>
    intro p
    constructor
    · intro h; cases h
    · rintro ⟨l1, l2, heq, -, -⟩
      cases l1 <;> simp at heq
  | cons o rest ih =>
    intro p
    unfold findSimilar
    by_cases ho : plainMatchB cfg fs work o = true
    · rw [if_pos ho]
      constructor
      · intro h
        injection h with h
        subst h
        exact ⟨[], rest, rfl, (plainMatchB_correct cfg fs work o).mp ho, by simp⟩
      · rintro ⟨l1, l2, heq, hp, hall⟩
        cases l1 with
        | nil =>
          simp only [List.nil_append, List.cons.injEq] at heq
          rw [heq.1]
        | cons q l1' =>
          simp only [List.cons_append, List.cons.injEq] at heq
          exact absurd (heq.1 ▸ (plainMatchB_correct cfg fs work o).mp ho)
            (hall q (List.mem_cons_self q l1'))
    · rw [if_neg ho]
      rw [ih p]
      constructor
      · rintro ⟨l1, l2, heq, hp, hall⟩
        refine ⟨o :: l1, l2, by rw [heq, List.cons_append], hp, ?_⟩
        intro q hq
        rcases List.mem_cons.mp hq with h | h
        · subst h
          exact fun hc => ho ((plainMatchB_correct cfg fs work q).mpr hc)
        · exact hall q h
      · rintro ⟨l1, l2, heq, hp, hall⟩
        cases l1 with
        | nil =>
          simp only [List.nil_append, List.cons.injEq] at heq
          exact absurd (heq.1 ▸ hp) fun hc =>
            ho ((plainMatchB_correct cfg fs work o).mpr hc)
        | cons q l1' =>
          simp only [List.cons_append, List.cons.injEq] at heq
          refine ⟨l1', l2, heq.2, hp, ?_⟩
          intro q' hq'
          exact hall q' (List.mem_cons_of_mem q hq')

/-- C1 (corrected, amended): with `media_magic=False` and `tolerate_hour`
normalised to `(lo, hi)`, `_find_similar` returns exactly the first candidate
(in candidate order) whose date condition (ignore_date, or exactly equal
mtimes, or hour delta `(work.mtime - other.mtime)/3600` within `[lo, hi]`
inclusive) and size condition (ignore_size, or equal byte sizes and — under
checksum — equal CRC32 values) both hold; and whenever `lo ≤ 0 ≤ hi` — as for
every `tolerate_hour` normalised from a bool or an int — the date condition
(under `ignore_date=False`) reduces to the spec's "hour delta within
`[lo, hi]`" form, so a match occurs iff the hour delta is within `[lo, hi]`
and the size condition holds. -/
theorem c1_plain_match (cfg : Config) (fs : FS) (work : String)
    (cands : List String) (p : String) :
    (findSimilar cfg fs work cands = some p ↔
      ∃ l1 l2, cands = l1 ++ p :: l2 ∧ plainMatch cfg fs work p ∧
        ∀ q ∈ l1, ¬ plainMatch cfg fs work q) ∧
    (cfg.ignore_date = false → tolerateLo cfg ≤ 0 → 0 ≤ tolerateHi cfg →
      cfg.tolerate_hour ≠ [] →
      ∀ o : String,
        (plainMatch cfg fs work o ↔
          ((tolerateLo cfg : ℚ) ≤
              (((fs.statD work).mtime : ℚ) - ((fs.statD o).mtime : ℚ)) / 3600 ∧
            (((fs.statD work).mtime : ℚ) - ((fs.statD o).mtime : ℚ)) / 3600 ≤
              (tolerateHi cfg : ℚ)) ∧
          (cfg.ignore_size = true ∨
            ((fs.statD work).size = (fs.statD o).size ∧
              (cfg.checksum = true → (fs.statD work).crc = (fs.statD o).crc))))) := by
  constructor
  · exact findSimilar_eq_some cfg fs work cands p
  · intro hid hlo hhi hne o
    unfold plainMatch
    constructor
    · rintro ⟨hd, hs⟩
      refine ⟨?_, hs⟩
      rcases hd with h | h | h
      · rw [hid] at h; cases h
      · rw [h]
        have hz : (((fs.statD o).mtime : ℚ) - ((fs.statD o).mtime : ℚ)) / 3600 = 0 := by
          rw [sub_self, zero_div]
        rw [hz]
        constructor
        · exact_mod_cast hlo
        · exact_mod_cast hhi
      · exact h.2
    · rintro ⟨hd, hs⟩
      exact ⟨Or.inr (Or.inr ⟨hne, hd.1, hd.2⟩), hs⟩

/-- C1 witness: with `tolerate_hour=(-1,1)` and an hour delta of exactly
`-1`, the single candidate is matched and the reduced form holds. -/
theorem c1_plain_match_witness :
    findSimilar cfgC1w fsC1w "/w/a.jpg" ["/o/a.jpg"] = some "/o/a.jpg" ∧
    ((tolerateLo cfgC1w : ℚ) ≤
        (((fsC1w.statD "/w/a.jpg").mtime : ℚ) - ((fsC1w.statD "/o/a.jpg").mtime : ℚ)) / 3600 ∧
      (((fsC1w.statD "/w/a.jpg").mtime : ℚ) - ((fsC1w.statD "/o/a.jpg").mtime : ℚ)) / 3600 ≤
        (tolerateHi cfgC1w : ℚ)) := by
  have h := c1_plain_match cfgC1w fsC1w "/w/a.jpg" ["/o/a.jpg"] "/o/a.jpg"
  constructor
  · exact h.1.mpr ⟨[], [], rfl,
      (plainMatchB_correct cfgC1w fsC1w "/w/a.jpg" "/o/a.jpg").mp (by decide), by simp⟩
  · exact (((h.2 rfl (by decide) (by decide) (by decide) "/o/a.jpg").mp
      ((plainMatchB_correct cfgC1w fsC1w "/w/a.jpg" "/o/a.jpg").mp (by decide)))).1

/-- C1 counterexample: under `tolerate_hour=(1,2)` two files with exactly
equal mtimes and sizes are matched although the hour delta `0` is not within
`[1, 2]` — refuting "a match occurs iff the hour delta is within `[lo, hi]`
inclusive and size matches". -/
theorem c1_counterexample :
    findSimilar cfgC1x fsC1x "/w/b.jpg" ["/o/b.jpg"] = some "/o/b.jpg" ∧
    ¬ ((tolerateLo cfgC1x : ℚ) ≤
        (((fsC1x.statD "/w/b.jpg").mtime : ℚ) - ((fsC1x.statD "/o/b.jpg").mtime : ℚ)) / 3600) := by
  constructor
  · decide
  · have h1 : (fsC1x.statD "/w/b.jpg").mtime = 50 := by decide
    have h2 : (fsC1x.statD "/o/b.jpg").mtime = 50 := by decide
    have h3 : tolerateLo cfgC1x = 1 := by decide
    rw [h1, h2, h3]
    norm_num

/-- C8 (corrected, amended): the work-file key of `_process_file` equals the
composition of its enabled transforms in exactly the order substitute
spaces → strip trailing counter → strip custom suffix regex → case-fold, and
it equals the spec's five-transform Key Builder only with the truncation
transform disabled — the work-file key is never truncated (truncation is
applied only on the original-file side, in `origKey`). -/
theorem c8_key_builder_order (cfg : Config) (stem : String) :
    workFileStem cfg stem =
      casefoldT cfg (stripSfxT cfg (stripCounterT cfg (space2charT cfg stem))) ∧
    workFileStem cfg stem =
      specKeyBuilder { cfg with work_file_stem_shortened := none } stem := by
  constructor
  · rfl
  · rfl

/-- C8 counterexample: with a configured shortened length the key produced
for a work file is *not* truncated, so it differs from the claimed
five-transform composition ending in truncation. -/
theorem c8_counterexample :
    workFileStem { work_file_stem_shortened := some 2 } "abcd" = "abcd" ∧
    specKeyBuilder { work_file_stem_shortened := some 2 } "abcd" = "ab" ∧
    workFileStem { work_file_stem_shortened := some 2 } "abcd" ≠
      specKeyBuilder { work_file_stem_shortened := some 2 } "abcd" := by
  refine ⟨rfl, rfl, ?_⟩
  decide

/-- C9 (corrected, amended): a work file is attempted at most 5 times, with
linearly increasing backoff `attempt * 1` seconds recorded before each retry;
a decompression-bomb error is never retried and — because its handler comes
before the generic one — never aborts the run, even under `fail_on_error`;
any other exception under `fail_on_error` aborts the run at once. -/
theorem c9_retry (fo : Bool) (outcome : Nat → AttemptResult) :
    (outcome 0 = .bomb → tryFile fo outcome = .bombFail 1) ∧
    (fo = true → outcome 0 = .err → tryFile fo outcome = .aborted 1) ∧
    (tryFile false (fun _ => .err) = .gaveUp [1 * 0, 1 * 1, 1 * 2, 1 * 3, 1 * 4]) := by
  refine ⟨?_, ?_, rfl⟩
  · intro h
    unfold tryFile tryFileAux
    rw [h]
  · intro hfo h
    unfold tryFile tryFileAux
    rw [h, hfo]
    rfl

/-- C9 witness: a bomb on the first attempt, an abort under `fail_on_error`,
and the five-attempt giving-up schedule, at concrete outcome functions. -/
theorem c9_retry_witness :
    tryFile true (fun _ => .bomb) = .bombFail 1 ∧
    tryFile true (fun _ => .err) = .aborted 1 := by
  exact ⟨(c9_retry true (fun _ => .bomb)).1 rfl,
         (c9_retry true (fun _ => .err)).2.1 rfl rfl⟩

/-- C9 counterexample: with `fail_on_error` set, a decompression-bomb
exception does not abort the run (the file is simply abandoned), refuting
"any exception aborts the entire run". -/
theorem c9_counterexample :
    tryFile true (fun _ => .bomb) = .bombFail 1 ∧
    (.bombFail 1 : FileRunResult) ≠ .aborted 1 := by
  exact ⟨rfl, by decide⟩

/-- C5 (corrected, amended): the rename target is the affected file's name
with the reserved `✓` marker prepended; in execute mode a collision raises
iff `fail_on_error` is set, otherwise the rename alone is skipped while the
annotation is still recorded; and the affected path is added to
`passed_away` and evicted from the metadata cache whenever `execute` (or
`bashify`) is active — on success *and* on a non-fatal collision alike, not
only on success. -/
theorem c5_rename (cfg : Config) (st : DogState) (af : String) (c : ChangeEntry)
    (hx : cfg.execute = true) :
    (st.fs.hasFile (withName af ("✓" ++ pathName af)) = true →
      cfg.fail_on_error = true → renameStep cfg st af c = .error ()) ∧
    (st.fs.hasFile (withName af ("✓" ++ pathName af)) = true →
      cfg.fail_on_error = false →
      renameStep cfg st af c =
        .ok ({ st with passed_away := st.passed_away ++ [af],
                       metadataKeys := st.metadataKeys.filter (· ≠ af) },
             c.add af .renamable)) ∧
    (st.fs.hasFile (withName af ("✓" ++ pathName af)) = false →
      renameStep cfg st af c =
        .ok ({ st with fs := st.fs.renameFile af (withName af ("✓" ++ pathName af)),
                       passed_away := st.passed_away ++ [af],
                       metadataKeys := st.metadataKeys.filter (· ≠ af) },
             c.add af .renaming)) := by
  refine ⟨?_, ?_, ?_⟩
  · intro ht hf
    unfold renameStep
    rw [hx]
    simp only [Bool.true_or, if_pos, ht, Bool.and_self, hf, if_true]
  · intro ht hf
    unfold renameStep
    rw [hx]
    simp only [Bool.true_or, if_pos, ht, Bool.and_self, hf]
    rfl
  · intro ht
    unfold renameStep
    rw [hx]
    simp only [Bool.true_or, if_pos, ht, Bool.and_false]
    rfl

/-- C5 witness: a collision under `fail_on_error` raises, and a clean rename
performs the move and the bookkeeping. -/
theorem c5_rename_witness :
    renameStep { cfgC5 with fail_on_error := true } stC5 "/w/a.jpg" entryC5 = .error () ∧
    renameStep cfgC5 { fs := [("/w/b.jpg", { size := 1 })] } "/w/b.jpg" entryC5 =
      .ok ({ fs := [("/w/✓b.jpg", { size := 1 })], passed_away := ["/w/b.jpg"] },
           entryC5.add "/w/b.jpg" .renaming) := by
  constructor
  · exact (c5_rename { cfgC5 with fail_on_error := true } stC5 "/w/a.jpg" entryC5 rfl).1
      (by decide) rfl
  · have h := (c5_rename cfgC5 { fs := [("/w/b.jpg", { size := 1 })] } "/w/b.jpg" entryC5 rfl).2.2
      (by decide)
    rw [h]
    rfl

/-- C5 counterexample: in execute mode with a pre-existing `✓`-target and
`fail_on_error` off, the rename is skipped (the filesystem and the
`renamable` annotation show no rename happened) yet the affected path is
still added to `passed_away` and evicted from the metadata cache — refuting
"it is on success that the affected path is added to the passed-away set and
evicted from the metadata cache". -/
theorem c5_counterexample :
    renameStep cfgC5 stC5 "/w/a.jpg" entryC5 =
      .ok ({ fs := fsC5, passed_away := ["/w/a.jpg"], metadataKeys := [] },
           { workPath := "/w/a.jpg", origPath := "/o/a.jpg",
             workAnns := [.renamable] }) := by
  rfl

/-- The action-conflict test equals "more than one of rename /
replace_with_original / delete". -/
theorem actionConflict_iff (a b c : Bool) :
    actionConflict a b c = ((a && b) || (a && c) || (b && c)) := by
  cases a <;> cases b <;> cases c <;> rfl

/-- The tail of `checkValidation` after tolerate-hour normalisation. -/
theorem checkValidation_tail (r : RawConfig) (th : List Int) :
    ((if r.ignore_name && r.ignore_date && r.ignore_size then none
      else if !r.media_magic && r.ignore_size && r.checksum then none
      else if actionConflict r.rename r.replace_with_original r.delete then none
      else some (toConfig r th)) = (none : Option Config)) ↔
      ((r.ignore_name = true ∧ r.ignore_date = true ∧ r.ignore_size = true) ∨
        (r.media_magic = false ∧ r.ignore_size = true ∧ r.checksum = true) ∨
        ((r.rename && r.replace_with_original) || (r.rename && r.delete) ||
          (r.replace_with_original && r.delete)) = true) := by
  by_cases h4 : (r.ignore_name && r.ignore_date && r.ignore_size) = true
  · rw [if_pos h4]
    simp only [Bool.and_eq_true] at h4
    exact ⟨fun _ => Or.inl ⟨h4.1.1, h4.1.2, h4.2⟩, fun _ => rfl⟩
  · rw [if_neg h4]
    by_cases h5 : (!r.media_magic && r.ignore_size && r.checksum) = true
    · rw [if_pos h5]
      simp only [Bool.and_eq_true, Bool.not_eq_true'] at h5
      exact ⟨fun _ => Or.inr (Or.inl ⟨h5.1.1, h5.1.2, h5.2⟩), fun _ => rfl⟩
    · rw [if_neg h5]
      by_cases h6 : actionConflict r.rename r.replace_with_original r.delete = true
      · rw [if_pos h6]
        rw [actionConflict_iff] at h6
        exact ⟨fun _ => Or.inr (Or.inr h6), fun _ => rfl⟩
      · rw [if_neg h6]
        constructor
        · intro h
          cases h
        · intro h
          exfalso
          rcases h with h | h | h
          · exact h4 (by rw [h.1, h.2.1, h.2.2]; rfl)
          · exact h5 (by rw [h.1, h.2.1, h.2.2]; rfl)
          · exact h6 (by rw [actionConflict_iff]; exact h)

/-- C6 (corrected, amended): with a non-empty `work_dir`, `check` raises (at
startup, before any file is touched) exactly when one of these holds:
`skip_bigger` without `media_magic`; `invert_selection` with
`replace_with_original`, `treat_bigger_as_original` or
`set_both_to_older_date`; a `tolerate_hour` that is not a bool, an int or a
tuple of ints (tuples of *any* arity are accepted, not only pairs); all of
`ignore_name`, `ignore_date`, `ignore_size`; `checksum` with `ignore_size`
*when `media_magic` is off* (the pair is accepted under `media_magic`); or
more than one of rename/delete/replace_with_original.  When it passes,
`tolerate_hour` is normalised: `True ↦ (-1,1)`, `False ↦ (0,0)`, int `n ↦
(-|n|,|n|)`, tuples unchanged. -/
theorem c6_validation (r : RawConfig) (hw : r.work_dir ≠ "") :
    (checkValidation r = none ↔
      (r.skip_bigger = true ∧ r.media_magic = false) ∨
      (r.invert_selection = true ∧
        (r.replace_with_original = true ∨ r.treat_bigger_as_original = true ∨
          r.set_both_to_older_date = true)) ∨
      r.tolerate_hour = THInput.other ∨
      (r.ignore_name = true ∧ r.ignore_date = true ∧ r.ignore_size = true) ∨
      (r.media_magic = false ∧ r.ignore_size = true ∧ r.checksum = true) ∨
      ((r.rename && r.replace_with_original) || (r.rename && r.delete) ||
        (r.replace_with_original && r.delete)) = true) ∧
    (∀ cfg, checkValidation r = some cfg →
      (r.tolerate_hour = .bool true → cfg.tolerate_hour = [-1, 1]) ∧
      (r.tolerate_hour = .bool false → cfg.tolerate_hour = [0, 0]) ∧
      (∀ n : Int, r.tolerate_hour = .int n →
        cfg.tolerate_hour = [-(n.natAbs : Int), (n.natAbs : Int)]) ∧
      (∀ l, r.tolerate_hour = .tup l → cfg.tolerate_hour = l)) := by
  constructor
  · unfold checkValidation
    rw [if_neg hw]
    by_cases h1 : (r.skip_bigger && !r.media_magic) = true
    · rw [if_pos h1]
      simp only [Bool.and_eq_true, Bool.not_eq_true'] at h1
      exact ⟨fun _ => Or.inl h1, fun _ => rfl⟩
    · rw [if_neg h1]
      by_cases h2 : (r.invert_selection &&
          (r.replace_with_original || r.treat_bigger_as_original ||
            r.set_both_to_older_date)) = true
      · rw [if_pos h2]
        simp only [Bool.and_eq_true, Bool.or_eq_true] at h2
        refine ⟨fun _ => Or.inr (Or.inl ⟨h2.1, ?_⟩), fun _ => rfl⟩
        rcases h2.2 with (h | h) | h
        · exact Or.inl h
        · exact Or.inr (Or.inl h)
        · exact Or.inr (Or.inr h)
      · rw [if_neg h2]
        have hnone : ∀ h : (r.skip_bigger = true ∧ r.media_magic = false) ∨
            (r.invert_selection = true ∧
              (r.replace_with_original = true ∨ r.treat_bigger_as_original = true ∨
                r.set_both_to_older_date = true)), False := by
          intro h
          rcases h with h | h
          · exact h1 (by rw [h.1, h.2]; rfl)
          · apply h2
            rw [h.1]
            rcases h.2 with h' | h' | h' <;> rw [h'] <;> simp
        cases hth : r.tolerate_hour with
        | bool b =>
          cases b
          · simp only [normalizeTolerate]
            rw [checkValidation_tail r [0, 0]]
            constructor
            · intro h
              exact Or.inr (Or.inr (Or.inr h))
            · intro h
              rcases h with h | h | h | h
              · exact absurd (Or.inl h) hnone
              · exact absurd (Or.inr h) hnone
              · exact THInput.noConfusion h
              · exact h
          · simp only [normalizeTolerate]
            rw [checkValidation_tail r [-1, 1]]
            constructor
            · intro h
              exact Or.inr (Or.inr (Or.inr h))
            · intro h
              rcases h with h | h | h | h
              · exact absurd (Or.inl h) hnone
              · exact absurd (Or.inr h) hnone
              · exact THInput.noConfusion h
              · exact h
        | int n =>
          simp only [normalizeTolerate]
          rw [checkValidation_tail r [-(n.natAbs : Int), (n.natAbs : Int)]]
          constructor
          · intro h
            exact Or.inr (Or.inr (Or.inr h))
          · intro h
            rcases h with h | h | h | h
            · exact absurd (Or.inl h) hnone
            · exact absurd (Or.inr h) hnone
            · exact THInput.noConfusion h
            · exact h
        | tup l =>
          simp only [normalizeTolerate]
          rw [checkValidation_tail r l]
          constructor
          · intro h
            exact Or.inr (Or.inr (Or.inr h))
          · intro h
            rcases h with h | h | h | h
            · exact absurd (Or.inl h) hnone
            · exact absurd (Or.inr h) hnone
            · exact THInput.noConfusion h
            · exact h
        | other =>
          exact ⟨fun _ => Or.inr (Or.inr (Or.inl rfl)), fun _ => rfl⟩
  · intro cfg hc
    unfold checkValidation at hc
    rw [if_neg hw] at hc
    refine ⟨?_, ?_, ?_, ?_⟩
    · intro hb
      rw [hb] at hc
      simp only [normalizeTolerate] at hc
      split at hc
      · cases hc
      · split at hc
        · cases hc
        · split at hc
          · cases hc
          · split at hc
            · cases hc
            · split at hc
              · cases hc
              · injection hc with hc
                rw [← hc]
                rfl
    · intro hb
      rw [hb] at hc
      simp only [normalizeTolerate] at hc
      split at hc
      · cases hc
      · split at hc
        · cases hc
        · split at hc
          · cases hc
          · split at hc
            · cases hc
            · split at hc
              · cases hc
              · injection hc with hc
                rw [← hc]
                rfl
    · intro n hb
      rw [hb] at hc
      simp only [normalizeTolerate] at hc
      split at hc
      · cases hc
      · split at hc
        · cases hc
        · split at hc
          · cases hc
          · split at hc
            · cases hc
            · split at hc
              · cases hc
              · injection hc with hc
                rw [← hc]
                rfl
    · intro l hb
      rw [hb] at hc
      simp only [normalizeTolerate] at hc
      split at hc
      · cases hc
      · split at hc
        · cases hc
        · split at hc
          · cases hc
          · split at hc
            · cases hc
            · split at hc
              · cases hc
              · injection hc with hc
                rw [← hc]
                rfl

/-- C6 witness: `skip_bigger` without `media_magic` is rejected, and an int
`tolerate_hour` is normalised to `(-|n|, |n|)`. -/
theorem c6_validation_witness :
    checkValidation rawC6w = none ∧
    ∀ cfg, checkValidation { tolerate_hour := THInput.int (-3) : RawConfig } = some cfg →
      cfg.tolerate_hour = [-3, 3] := by
  constructor
  · exact (c6_validation rawC6w (by decide)).1.mpr (Or.inl ⟨rfl, rfl⟩)
  · intro cfg hc
    exact ((c6_validation { tolerate_hour := THInput.int (-3) : RawConfig }
      (by decide)).2 cfg hc).2.2.1 (-3) rfl

/-- C6 counterexample: `checksum` together with `ignore_size` passes
validation when `media_magic` is set (the check lives in the non-media
branch), and an int *triple* `tolerate_hour=(1,2,3)` also passes — refuting
"raises exactly when … checksum together with ignore_size; … a tolerate_hour
value that is not a bool, whole int, or int pair". -/
theorem c6_counterexample :
    (checkValidation rawC6a).isSome = true ∧ (checkValidation rawC6b).isSome = true := by
  exact ⟨rfl, rfl⟩

theorem ChangeEntry.mem_add_work (c : ChangeEntry) (p : String) (a b : Ann) :
    b ∈ (c.add p a).workAnns ↔ b ∈ c.workAnns ∨ (p = c.workPath ∧ b = a) := by
  unfold ChangeEntry.add
  by_cases h : p = c.workPath
  · rw [if_pos h]
    simp [h]
  · rw [if_neg h]
    by_cases h2 : p = c.origPath
    · rw [if_pos h2]
      simp [h]
    · rw [if_neg h2]
      simp [h]

theorem ChangeEntry.mem_add_orig (c : ChangeEntry) (p : String) (a b : Ann) :
    b ∈ (c.add p a).origAnns ↔
      b ∈ c.origAnns ∨ (¬p = c.workPath ∧ p = c.origPath ∧ b = a) := by
  unfold ChangeEntry.add
  by_cases h : p = c.workPath
  · rw [if_pos h]
    simp [h]
  · rw [if_neg h]
    by_cases h2 : p = c.origPath
    · subst h2
      rw [if_pos rfl]
      simp [h]
    · rw [if_neg h2]
      simp [h, h2]

theorem ChangeEntry.hasAction_add (c : ChangeEntry) (p : String) (a : Ann)
    (hc : c.hasAction = false) (ha : a.isAction = false) :
    (c.add p a).hasAction = false := by
  unfold ChangeEntry.hasAction ChangeEntry.add at *
  simp only [List.any_append, Bool.or_eq_false_iff] at hc
  by_cases h : p = c.workPath
  · rw [if_pos h]
    simp [List.any_append, hc.1, hc.2, ha]
  · rw [if_neg h]
    by_cases h2 : p = c.origPath
    · rw [if_pos h2]
      simp [List.any_append, hc.1, hc.2, ha]
    · rw [if_neg h2]
      simp [List.any_append, hc.1, hc.2]

theorem dateRecon_no_redate (cfg : Config) (st : DogState) (a o : String)
    (c : ChangeEntry) (h : cfg.set_both_to_older_date = false) :
    dateRecon cfg st a o c =
      match dateWarnOf cfg st.fs a o with
      | some _ =>
        (st, c.add o (.dateWarning ((st.fs.statD o).mtime - (st.fs.statD a).mtime)))
      | none => (st, c) := by
  unfold dateRecon
  rw [h]
  rfl

theorem dateRecon_book (cfg : Config) (st : DogState) (a o : String) (c : ChangeEntry) :
    SameBook (dateRecon cfg st a o c).1 st ∧
    (dateRecon cfg st a o c).1.passed_away = st.passed_away := by
  unfold dateRecon changeFileDate SameBook
  by_cases h1 : (cfg.set_both_to_older_date &&
      decide ((st.fs.statD a).mtime ≠ (st.fs.statD o).mtime)) = true
  · rw [if_pos h1]
    by_cases h2 : (st.fs.statD o).mtime < (st.fs.statD a).mtime
    · rw [if_pos h2]
      by_cases h3 : cfg.execute = true
      · rw [if_pos h3]
        exact ⟨⟨rfl, rfl, rfl, rfl, rfl, rfl⟩, rfl⟩
      · rw [if_neg h3]
        exact ⟨⟨rfl, rfl, rfl, rfl, rfl, rfl⟩, rfl⟩
    · rw [if_neg h2]
      by_cases h3 : cfg.execute = true
      · rw [if_pos h3]
        exact ⟨⟨rfl, rfl, rfl, rfl, rfl, rfl⟩, rfl⟩
      · rw [if_neg h3]
        exact ⟨⟨rfl, rfl, rfl, rfl, rfl, rfl⟩, rfl⟩
  · rw [if_neg h1]
    rcases hdw : dateWarnOf cfg st.fs a o with _ | w
    · exact ⟨⟨rfl, rfl, rfl, rfl, rfl, rfl⟩, rfl⟩
    · exact ⟨⟨rfl, rfl, rfl, rfl, rfl, rfl⟩, rfl⟩

theorem dateRecon_sizemem (cfg : Config) (st : DogState) (a o : String)
    (c : ChangeEntry) (d : Nat) :
    Ann.sizeWarning d ∈ (dateRecon cfg st a o c).2.workAnns ↔
      Ann.sizeWarning d ∈ c.workAnns := by
  unfold dateRecon changeFileDate
  by_cases h1 : (cfg.set_both_to_older_date &&
      decide ((st.fs.statD a).mtime ≠ (st.fs.statD o).mtime)) = true
  · rw [if_pos h1]
    by_cases h2 : (st.fs.statD o).mtime < (st.fs.statD a).mtime
    · rw [if_pos h2]
      by_cases h3 : cfg.execute = true
      · rw [if_pos h3]
        show Ann.sizeWarning d ∈
            (c.add a (.redating (st.fs.statD a).mtime (st.fs.statD o).mtime)).workAnns ↔
          Ann.sizeWarning d ∈ c.workAnns
        rw [ChangeEntry.mem_add_work]
        simp
      · rw [if_neg h3]
        show Ann.sizeWarning d ∈
            (c.add a (.redatable (st.fs.statD a).mtime (st.fs.statD o).mtime)).workAnns ↔
          Ann.sizeWarning d ∈ c.workAnns
        rw [ChangeEntry.mem_add_work]
        simp
    · rw [if_neg h2]
      by_cases h3 : cfg.execute = true
      · rw [if_pos h3]
        show Ann.sizeWarning d ∈
            (c.add o (.redating (st.fs.statD o).mtime (st.fs.statD a).mtime)).workAnns ↔
          Ann.sizeWarning d ∈ c.workAnns
        rw [ChangeEntry.mem_add_work]
        simp
      · rw [if_neg h3]
        show Ann.sizeWarning d ∈
            (c.add o (.redatable (st.fs.statD o).mtime (st.fs.statD a).mtime)).workAnns ↔
          Ann.sizeWarning d ∈ c.workAnns
        rw [ChangeEntry.mem_add_work]
        simp
  · rw [if_neg h1]
    rcases hdw : dateWarnOf cfg st.fs a o with _ | w
    · exact Iff.rfl
    · show Ann.sizeWarning d ∈
          (c.add o (.dateWarning
            ((st.fs.statD o).mtime - (st.fs.statD a).mtime))).workAnns ↔
        Ann.sizeWarning d ∈ c.workAnns
      rw [ChangeEntry.mem_add_work]
      simp

theorem renameStep_ok (cfg : Config) (st : DogState) (af : String) (c : ChangeEntry) :
    ∀ sc, renameStep cfg st af c = .ok sc →
      SameBook sc.1 st ∧ ∃ m, sc.2 = c.add af m ∧ m.isAction = true := by
  intro sc h
  simp only [renameStep] at h
  by_cases hb : (cfg.execute || cfg.bashify) = true
  · rw [if_pos hb] at h
    by_cases h2 : (cfg.execute && st.fs.hasFile (withName af ("✓" ++ pathName af))) = true
    · rw [if_pos h2] at h
      by_cases h3 : cfg.fail_on_error = true
      · rw [if_pos h3] at h
        cases h
      · rw [if_neg h3] at h
        injection h with h
        subst h
        exact ⟨⟨rfl, rfl, rfl, rfl, rfl, rfl⟩, .renamable, rfl, rfl⟩
    · rw [if_neg h2] at h
      by_cases h4 : cfg.execute = true
      · rw [if_pos h4] at h
        injection h with h
        subst h
        exact ⟨⟨rfl, rfl, rfl, rfl, rfl, rfl⟩, .renaming, rfl, rfl⟩
      · rw [if_neg h4] at h
        injection h with h
        subst h
        exact ⟨⟨rfl, rfl, rfl, rfl, rfl, rfl⟩, .renamable, rfl, rfl⟩
  · rw [if_neg hb] at h
    injection h with h
    subst h
    exact ⟨⟨rfl, rfl, rfl, rfl, rfl, rfl⟩, .renamable, rfl, rfl⟩

theorem deleteStep_ok (cfg : Config) (st : DogState) (af : String) (c : ChangeEntry) :
    SameBook (deleteStep cfg st af c).1 st ∧
    ∃ m, (deleteStep cfg st af c).2 = c.add af m ∧ m.isAction = true := by
  by_cases hb : (cfg.execute || cfg.bashify) = true
  · by_cases he : cfg.execute = true
    · refine ⟨?_, .deleting, ?_, rfl⟩ <;>
        simp [deleteStep, SameBook, hb, he]
    · have hbash : cfg.bashify = true := by
        rw [Bool.not_eq_true] at he
        rw [he] at hb
        simpa using hb
      refine ⟨?_, .deletable, ?_, rfl⟩ <;>
        simp [deleteStep, SameBook, hb, he, hbash]
  · refine ⟨?_, .deletable, ?_, rfl⟩ <;>
      simp [deleteStep, SameBook, hb]

theorem replaceStep_ok (cfg : Config) (st : DogState) (af other : String)
    (c : ChangeEntry) :
    SameBook (replaceStep cfg st af other c).1 st ∧
    ∃ m, (replaceStep cfg st af other c).2 = c.add af m ∧ m.isAction = true := by
  by_cases hn : pathName other = pathName af
  · by_cases he : cfg.execute = true
    · refine ⟨?_, .replacing, ?_, rfl⟩ <;>
        simp [replaceStep, SameBook, hn, he]
    · refine ⟨?_, .replacable, ?_, rfl⟩ <;>
        simp [replaceStep, SameBook, hn, he]
  · by_cases he : cfg.execute = true
    · refine ⟨?_, .replacing, ?_, rfl⟩ <;>
        simp [replaceStep, SameBook, hn, he]
    · refine ⟨?_, .replacable, ?_, rfl⟩ <;>
        simp [replaceStep, SameBook, hn, he]

theorem sizemem_add_action (c : ChangeEntry) (p : String) (m : Ann)
    (hm : m.isAction = true) (d : Nat) :
    Ann.sizeWarning d ∈ (c.add p m).workAnns ↔ Ann.sizeWarning d ∈ c.workAnns := by
  rw [ChangeEntry.mem_add_work]
  constructor
  · intro h
    rcases h with h | h
    · exact h
    · rw [← h.2] at hm
      exact Bool.noConfusion hm
  · exact Or.inl

theorem sameBook_trans (x y z : DogState) (hxy : SameBook x y) (hyz : SameBook y z) :
    SameBook x z :=
  ⟨hxy.1.trans hyz.1, hxy.2.1.trans hyz.2.1, hxy.2.2.1.trans hyz.2.2.1,
    hxy.2.2.2.1.trans hyz.2.2.2.1, hxy.2.2.2.2.1.trans hyz.2.2.2.2.1,
    hxy.2.2.2.2.2.trans hyz.2.2.2.2.2⟩

theorem runActions_ok (cfg : Config) (st2 : DogState) (af other : String)
    (c2 : ChangeEntry) :
    ∀ sc, runActions cfg st2 af other c2 = .ok sc →
      SameBook sc.1 st2 ∧
      (∀ d, Ann.sizeWarning d ∈ sc.2.workAnns ↔ Ann.sizeWarning d ∈ c2.workAnns) := by
  have step45 :
      ∀ sc3 : DogState × ChangeEntry, SameBook sc3.1 st2 →
        (∀ d, Ann.sizeWarning d ∈ sc3.2.workAnns ↔ Ann.sizeWarning d ∈ c2.workAnns) →
        ∀ sc : DogState × ChangeEntry,
        (if cfg.replace_with_original
         then replaceStep cfg (if cfg.delete then deleteStep cfg sc3.1 af sc3.2 else sc3).1
            af other (if cfg.delete then deleteStep cfg sc3.1 af sc3.2 else sc3).2
         else (if cfg.delete then deleteStep cfg sc3.1 af sc3.2 else sc3)) = sc →
        SameBook sc.1 st2 ∧
          (∀ d, Ann.sizeWarning d ∈ sc.2.workAnns ↔ Ann.sizeWarning d ∈ c2.workAnns) := by
    intro sc3 hb3 hm3 sc heq
    subst heq
    have h4 : SameBook (if cfg.delete then deleteStep cfg sc3.1 af sc3.2 else sc3).1 st2 ∧
        (∀ d, Ann.sizeWarning d ∈
            (if cfg.delete then deleteStep cfg sc3.1 af sc3.2 else sc3).2.workAnns ↔
          Ann.sizeWarning d ∈ c2.workAnns) := by
      by_cases hd : cfg.delete = true
      · rw [if_pos hd]
        obtain ⟨hb, m, hm, hact⟩ := deleteStep_ok cfg sc3.1 af sc3.2
        refine ⟨sameBook_trans _ _ _ hb hb3, ?_⟩
        intro d
        rw [hm, sizemem_add_action _ _ _ hact]
        exact hm3 d
      · rw [if_neg hd]
        exact ⟨hb3, hm3⟩
    by_cases hrep : cfg.replace_with_original = true
    · rw [if_pos hrep]
      obtain ⟨hb, m, hm, hact⟩ :=
        replaceStep_ok cfg (if cfg.delete then deleteStep cfg sc3.1 af sc3.2 else sc3).1
          af other (if cfg.delete then deleteStep cfg sc3.1 af sc3.2 else sc3).2
      refine ⟨sameBook_trans _ _ _ hb h4.1, ?_⟩
      intro d
      rw [hm, sizemem_add_action _ _ _ hact]
      exact h4.2 d
    · rw [if_neg hrep]
      exact h4
  intro sc h
  unfold runActions at h
  by_cases hr : cfg.rename = true
  · rw [if_pos hr] at h
    rcases hrs : renameStep cfg st2 af c2 with e | sc3
    · rw [hrs] at h
      cases h
    · rw [hrs] at h
      obtain ⟨hb, m, hm, hact⟩ := renameStep_ok cfg st2 af c2 sc3 hrs
      simp only [] at h
      injection h with h
      refine step45 sc3 hb ?_ sc h
      intro d
      rw [hm, sizemem_add_action _ _ _ hact]
  · rw [if_neg hr] at h
    simp only [] at h
    injection h with h
    exact step45 (st2, c2) ⟨rfl, rfl, rfl, rfl, rfl, rfl⟩ (fun d => Iff.rfl) sc h

theorem ChangeEntry.add_paths (c : ChangeEntry) (p : String) (a : Ann) :
    (c.add p a).workPath = c.workPath ∧ (c.add p a).origPath = c.origPath := by
  unfold ChangeEntry.add
  by_cases h : p = c.workPath
  · rw [if_pos h]
    exact ⟨rfl, rfl⟩
  · rw [if_neg h]
    by_cases h2 : p = c.origPath
    · rw [if_pos h2]
      exact ⟨rfl, rfl⟩
    · rw [if_neg h2]
      exact ⟨rfl, rfl⟩

theorem ChangeEntry.add_mem_self (c : ChangeEntry) (p : String) (a : Ann)
    (hp : p = c.workPath ∨ p = c.origPath) :
    a ∈ (c.add p a).workAnns ∨ a ∈ (c.add p a).origAnns := by
  unfold ChangeEntry.add
  by_cases h : p = c.workPath
  · rw [if_pos h]
    left
    simp
  · rw [if_neg h]
    rcases hp with hp | hp
    · exact absurd hp h
    · rw [if_pos hp]
      right
      simp

theorem sizemem_add_ne (c : ChangeEntry) (p : String) (m : Ann) (d : Nat)
    (hne : m ≠ Ann.sizeWarning d) :
    Ann.sizeWarning d ∈ (c.add p m).workAnns ↔ Ann.sizeWarning d ∈ c.workAnns := by
  rw [ChangeEntry.mem_add_work]
  constructor
  · intro h
    rcases h with h | h
    · exact h
    · exact absurd h.2.symm hne
  · exact Or.inl

theorem resolveRoles_cases (cfg : Config) (fs : FS) (work orig : String) :
    resolveRoles cfg fs work orig = (work, orig) ∨
    resolveRoles cfg fs work orig = (orig, work) := by
  unfold resolveRoles
  by_cases h : (cfg.media_magic && cfg.treat_bigger_as_original &&
      decide ((fs.statD work).size > (fs.statD orig).size)) = true
  · rw [if_pos h]
    right
    rfl
  · rw [if_neg h]
    left
    rfl

theorem resolveRoles_nomedia (cfg : Config) (fs : FS) (work orig : String)
    (h : cfg.media_magic = false) :
    resolveRoles cfg fs work orig = (work, orig) := by
  unfold resolveRoles
  rw [h]
  rfl

theorem dateWarnOf_eq (cfg : Config) (fs : FS) (a o w : String)
    (h : dateWarnOf cfg fs a o = some w) : w = o := by
  unfold dateWarnOf at h
  split at h
  · injection h with h
    exact h.symm
  · cases h

theorem warningOf_mem (cfg : Config) (fs : FS) (work orig w : String)
    (h : warningOf cfg fs work orig = some w) : w = work ∨ w = orig := by
  simp only [warningOf] at h
  rcases hdw : dateWarnOf cfg fs (resolveRoles cfg fs work orig).1
      (resolveRoles cfg fs work orig).2 with _ | w2
  · rw [hdw] at h
    have h' : (if (sizeWarnOf cfg fs work orig).isSome then
        some work else none) = some w := h
    by_cases hs : (sizeWarnOf cfg fs work orig).isSome
    · rw [if_pos hs] at h'
      injection h' with h'
      exact Or.inl h'.symm
    · rw [if_neg hs] at h'
      cases h'
  · rw [hdw] at h
    have h' : (some w2 : Option String) = some w := h
    injection h' with h'
    subst h'
    have h2 := dateWarnOf_eq cfg fs _ _ _ hdw
    rcases resolveRoles_cases cfg fs work orig with hr | hr <;> rw [hr] at h2
    · exact Or.inr h2
    · exact Or.inl h2

theorem baseEntry_paths (cfg : Config) (fs : FS) (work orig : String) :
    (baseEntry cfg fs work orig).workPath = work ∧
    (baseEntry cfg fs work orig).origPath = orig := by
  unfold baseEntry
  rcases hsw : sizeWarnOf cfg fs work orig with _ | d
  · exact ⟨rfl, rfl⟩
  · exact ⟨(ChangeEntry.add_paths _ _ _).1, (ChangeEntry.add_paths _ _ _).2⟩

theorem affectEntry_paths (cfg : Config) (fs : FS) (work orig : String) :
    (affectEntry cfg fs work orig).workPath = work ∧
    (affectEntry cfg fs work orig).origPath = orig := by
  simp only [affectEntry]
  rcases hdw : dateWarnOf cfg fs (resolveRoles cfg fs work orig).1
      (resolveRoles cfg fs work orig).2 with _ | w
  · exact baseEntry_paths cfg fs work orig
  · exact ⟨(ChangeEntry.add_paths _ _ _).1.trans (baseEntry_paths cfg fs work orig).1,
      (ChangeEntry.add_paths _ _ _).2.trans (baseEntry_paths cfg fs work orig).2⟩

theorem baseEntry_hasAction (cfg : Config) (fs : FS) (work orig : String) :
    (baseEntry cfg fs work orig).hasAction = false := by
  unfold baseEntry
  rcases hsw : sizeWarnOf cfg fs work orig with _ | d
  · rfl
  · exact ChangeEntry.hasAction_add _ _ _ rfl rfl

theorem affectEntry_hasAction (cfg : Config) (fs : FS) (work orig : String) :
    (affectEntry cfg fs work orig).hasAction = false := by
  simp only [affectEntry]
  rcases hdw : dateWarnOf cfg fs (resolveRoles cfg fs work orig).1
      (resolveRoles cfg fs work orig).2 with _ | w
  · exact baseEntry_hasAction cfg fs work orig
  · exact ChangeEntry.hasAction_add _ _ _ (baseEntry_hasAction cfg fs work orig) rfl

theorem baseEntry_sizemem (cfg : Config) (fs : FS) (work orig : String) :
    Ann.sizeWarning ((fs.statD work).size - (fs.statD orig).size) ∈
        (baseEntry cfg fs work orig).workAnns ↔
      cfg.media_magic = true ∧ cfg.treat_bigger_as_original = false ∧
        (fs.statD work).size > (fs.statD orig).size := by
  unfold baseEntry sizeWarnOf
  by_cases h : (cfg.media_magic && !cfg.treat_bigger_as_original &&
      decide ((fs.statD work).size > (fs.statD orig).size)) = true
  · rw [if_pos h]
    simp only [Bool.and_eq_true, Bool.not_eq_true', decide_eq_true_eq] at h
    refine iff_of_true ?_ ⟨h.1.1, h.1.2, h.2⟩
    rw [ChangeEntry.mem_add_work]
    exact Or.inr ⟨rfl, rfl⟩
  · rw [if_neg h]
    simp only [Bool.and_eq_true, Bool.not_eq_true', decide_eq_true_eq, not_and] at h
    refine iff_of_false (by simp [ChangeEntry.workAnns]) ?_
    intro ⟨ha, hb, hc⟩
    exact h ⟨ha, hb⟩ hc

theorem affectEntry_sizemem (cfg : Config) (fs : FS) (work orig : String) :
    Ann.sizeWarning ((fs.statD work).size - (fs.statD orig).size) ∈
        (affectEntry cfg fs work orig).workAnns ↔
      cfg.media_magic = true ∧ cfg.treat_bigger_as_original = false ∧
        (fs.statD work).size > (fs.statD orig).size := by
  simp only [affectEntry]
  rcases hdw : dateWarnOf cfg fs (resolveRoles cfg fs work orig).1
      (resolveRoles cfg fs work orig).2 with _ | w
  · exact baseEntry_sizemem cfg fs work orig
  · rw [sizemem_add_ne _ _ _ _ (by intro h; cases h)]
    exact baseEntry_sizemem cfg fs work orig

theorem affectTail_skip (cfg : Config) (st1 : DogState) (a o : String)
    (c2 : ChangeEntry) (w : String) (hneg : cfg.neglect_warning = false) :
    affectTail cfg st1 a o c2 (some w) =
      .ok { st1 with changes := st1.changes ++ [c2.add w .skippedOnWarning],
                     warning_count := st1.warning_count + 1 } := by
  unfold affectTail
  rw [hneg]
  rfl

theorem affectTail_neglect (cfg : Config) (st1 : DogState) (a o : String)
    (c2 : ChangeEntry) (w : String) (hneg : cfg.neglect_warning = true) :
    affectTail cfg st1 a o c2 (some w) = affectAct cfg st1 a o c2 1 := by
  unfold affectTail
  rw [hneg]
  rfl

theorem affectTail_none (cfg : Config) (st1 : DogState) (a o : String)
    (c2 : ChangeEntry) :
    affectTail cfg st1 a o c2 none = affectAct cfg st1 a o c2 0 := rfl

theorem affectAct_ok (cfg : Config) (st1 : DogState) (a o : String)
    (c2 : ChangeEntry) (k : Nat) :
    ∀ st', affectAct cfg st1 a o c2 k = .ok st' →
      ∃ sc, runActions cfg
          { st1 with
            size_affected := st1.size_affected + (st1.fs.statD a).size,
            affected_count := st1.affected_count + 1 } a o c2 = .ok sc ∧
        st' = { sc.1 with
          changes := sc.1.changes ++ [sc.2]
          warning_count := sc.1.warning_count + k } := by
  intro st' h
  unfold affectAct at h
  rcases hra : runActions cfg
      { st1 with
        size_affected := st1.size_affected + (st1.fs.statD a).size,
        affected_count := st1.affected_count + 1 } a o c2 with e | sc
  · rw [hra] at h
    exact Except.noConfusion h
  · rw [hra] at h
    exact ⟨sc, rfl, (Except.ok.inj h).symm⟩

theorem affect_unfold (cfg : Config) (st : DogState) (work orig : String)
    (h1 : work ≠ orig)
    (hsk : ¬ ((cfg.media_magic && cfg.skip_bigger &&
      decide ((st.fs.statD (resolveRoles cfg st.fs work orig).1).size >
        (st.fs.statD (resolveRoles cfg st.fs work orig).2).size)) = true)) :
    affect cfg st work orig =
      affectTail cfg
        (dateRecon cfg st (resolveRoles cfg st.fs work orig).1
          (resolveRoles cfg st.fs work orig).2 (baseEntry cfg st.fs work orig)).1
        (resolveRoles cfg st.fs work orig).1 (resolveRoles cfg st.fs work orig).2
        (dateRecon cfg st (resolveRoles cfg st.fs work orig).1
          (resolveRoles cfg st.fs work orig).2 (baseEntry cfg st.fs work orig)).2
        (warningOf cfg st.fs work orig) := by
  simp only [affect]
  rw [if_neg h1, if_neg hsk]

theorem list_ne_append_singleton {α : Type} (l : List α) (a : α) :
    ¬ (l = l ++ [a]) := by
  intro h
  have := congrArg List.length h
  simp at this

/-- C2 (corrected, amended): for every matched pair marked "warned" — with
`set_both_to_older_date` off (when it is on, the date reconciliation that
precedes the gate may still rewrite an mtime even for a warned pair) and no
`skip_bigger` early return — when `neglect_warning=False` the remediation
actions are replaced by a single "skipped on warning" annotation, the
filesystem and every counter are left untouched except `warning_count`, and
`size_affected`/`affected_count` are not incremented; when the pair is not
warned or `neglect_warning=True`, remediation proceeds and the two counters
increment by the affected file's byte size and by one. -/
theorem c2_warning_gate (cfg : Config) (st : DogState) (work orig : String)
    (h1 : work ≠ orig) (h2 : cfg.set_both_to_older_date = false)
    (h3 : cfg.skip_bigger = false) :
    (∀ w, warningOf cfg st.fs work orig = some w → cfg.neglect_warning = false →
      affect cfg st work orig =
        .ok { st with
              changes := st.changes ++
                [(affectEntry cfg st.fs work orig).add w .skippedOnWarning],
              warning_count := st.warning_count + 1 } ∧
      ((affectEntry cfg st.fs work orig).add w .skippedOnWarning).hasAction = false ∧
      (Ann.skippedOnWarning ∈
          ((affectEntry cfg st.fs work orig).add w .skippedOnWarning).workAnns ∨
        Ann.skippedOnWarning ∈
          ((affectEntry cfg st.fs work orig).add w .skippedOnWarning).origAnns)) ∧
    ((warningOf cfg st.fs work orig = none ∨ cfg.neglect_warning = true) →
      ∀ st', affect cfg st work orig = .ok st' →
        st'.size_affected = st.size_affected +
          (st.fs.statD (resolveRoles cfg st.fs work orig).1).size ∧
        st'.affected_count = st.affected_count + 1) := by
  have hsk : ¬ ((cfg.media_magic && cfg.skip_bigger &&
      decide ((st.fs.statD (resolveRoles cfg st.fs work orig).1).size >
        (st.fs.statD (resolveRoles cfg st.fs work orig).2).size)) = true) := by
    rw [h3]
    simp
  constructor
  · intro w hw hneg
    have hmain : affect cfg st work orig =
        .ok { st with
              changes := st.changes ++
                [(affectEntry cfg st.fs work orig).add w .skippedOnWarning],
              warning_count := st.warning_count + 1 } := by
      rw [affect_unfold cfg st work orig h1 hsk,
        dateRecon_no_redate cfg st _ _ _ h2, hw]
      simp only [affectEntry]
      rcases hdw : dateWarnOf cfg st.fs (resolveRoles cfg st.fs work orig).1
          (resolveRoles cfg st.fs work orig).2 with _ | w2
      · rw [affectTail_skip cfg _ _ _ _ _ hneg]
      · rw [affectTail_skip cfg _ _ _ _ _ hneg]
    refine ⟨hmain,
      ChangeEntry.hasAction_add _ _ _ (affectEntry_hasAction _ _ _ _) rfl, ?_⟩
    refine ChangeEntry.add_mem_self _ _ _ ?_
    rcases warningOf_mem cfg st.fs work orig w hw with h | h
    · exact Or.inl (h.trans (affectEntry_paths cfg st.fs work orig).1.symm)
    · exact Or.inr (h.trans (affectEntry_paths cfg st.fs work orig).2.symm)
  · intro h4 st' hst
    rw [affect_unfold cfg st work orig h1 hsk,
      dateRecon_no_redate cfg st _ _ _ h2] at hst
    have hact : ∃ k c2, affectAct cfg st (resolveRoles cfg st.fs work orig).1
        (resolveRoles cfg st.fs work orig).2 c2 k = .ok st' := by
      rcases hdw : dateWarnOf cfg st.fs (resolveRoles cfg st.fs work orig).1
          (resolveRoles cfg st.fs work orig).2 with _ | w2 <;>
        rw [hdw] at hst
      · rcases h4 with h4 | h4
        · rw [h4, affectTail_none] at hst
          exact ⟨0, _, hst⟩
        · rcases hwo : warningOf cfg st.fs work orig with _ | w
          · rw [hwo, affectTail_none] at hst
            exact ⟨0, _, hst⟩
          · rw [hwo, affectTail_neglect cfg _ _ _ _ _ h4] at hst
            exact ⟨1, _, hst⟩
      · rcases h4 with h4 | h4
        · rw [h4, affectTail_none] at hst
          exact ⟨0, _, hst⟩
        · rcases hwo : warningOf cfg st.fs work orig with _ | w
          · rw [hwo, affectTail_none] at hst
            exact ⟨0, _, hst⟩
          · rw [hwo, affectTail_neglect cfg _ _ _ _ _ h4] at hst
            exact ⟨1, _, hst⟩
    obtain ⟨k, c2, hk⟩ := hact
    obtain ⟨sc, hra, hst'⟩ := affectAct_ok cfg st _ _ c2 k st' hk
    obtain ⟨hbook, -⟩ := runActions_ok cfg _ _ _ c2 sc hra
    subst hst'
    exact ⟨hbook.1, hbook.2.1⟩

/-- C2 witness: a pair with a `DATE WARNING` (the original one hour newer),
`execute=True`, `neglect_warning=False`: the single skipped annotation is
recorded and nothing else happens. -/
theorem c2_warning_gate_witness :
    affect cfgC2w stC2w "/w/q.jpg" "/o/q.jpg" =
      .ok { stC2w with
            changes := [(affectEntry cfgC2w fsC2w "/w/q.jpg" "/o/q.jpg").add
              "/o/q.jpg" .skippedOnWarning],
            warning_count := 1 } ∧
    ((affectEntry cfgC2w fsC2w "/w/q.jpg" "/o/q.jpg").add
      "/o/q.jpg" .skippedOnWarning).hasAction = false := by
  have h := (c2_warning_gate cfgC2w stC2w "/w/q.jpg" "/o/q.jpg" (by decide) rfl rfl).1
    "/o/q.jpg" (by decide) rfl
  exact ⟨h.1, h.2.1⟩

/-- C2 counterexample: `media_magic` with `set_both_to_older_date`, a bigger
work file and a newer work mtime: the pair is size-warned and the actions are
gated, yet `execute` has already rewritten the work file's mtime via
`os.utime` — a filesystem mutation on a warned pair with
`neglect_warning=False`, refuting "no filesystem mutation occurs for that
pair even though execute=True". -/
theorem c2_counterexample :
    affect cfgC2x stC2x "/w/p.jpg" "/o/p.jpg" =
      .ok { fs := [("/w/p.jpg", { size := 200, mtime := 50 }),
                   ("/o/p.jpg", { size := 100, mtime := 50 })],
            changes := [{ workPath := "/w/p.jpg", origPath := "/o/p.jpg",
                          workAnns := [.sizeWarning 100, .redating 100 50,
                            .skippedOnWarning] }],
            warning_count := 1 } ∧
    (stC2x.fs.statD "/w/p.jpg").mtime = 100 := by
  exact ⟨by rfl, by decide⟩

/-- C3 (confirmed): the work file is affected and the original kept by
default; the roles swap iff `treat_bigger_as_original` is on, the media
strategy is active and the work file is strictly larger; when the work file
is larger under media mode without the swap policy, a SIZE WARNING naming the
byte delta is recorded in the pair's change entry (and only then); and
`skip_bigger` — evaluated after swap resolution on the final roles —
suppresses all remediation, returning the state untouched. -/
theorem c3_affect_roles (cfg : Config) (st : DogState) (work orig : String)
    (h1 : work ≠ orig) :
    ((resolveRoles cfg st.fs work orig).1 = orig ↔
      cfg.media_magic = true ∧ cfg.treat_bigger_as_original = true ∧
        (st.fs.statD work).size > (st.fs.statD orig).size) ∧
    (cfg.media_magic = true → cfg.skip_bigger = true →
      (st.fs.statD (resolveRoles cfg st.fs work orig).1).size >
        (st.fs.statD (resolveRoles cfg st.fs work orig).2).size →
      affect cfg st work orig = .ok st) ∧
    ((cfg.media_magic && cfg.skip_bigger &&
        decide ((st.fs.statD (resolveRoles cfg st.fs work orig).1).size >
          (st.fs.statD (resolveRoles cfg st.fs work orig).2).size)) = false →
      ∀ st', affect cfg st work orig = .ok st' →
        ∃ c, st'.changes = st.changes ++ [c] ∧
          (Ann.sizeWarning ((st.fs.statD work).size - (st.fs.statD orig).size) ∈
              c.workAnns ↔
            cfg.media_magic = true ∧ cfg.treat_bigger_as_original = false ∧
              (st.fs.statD work).size > (st.fs.statD orig).size)) := by
  refine ⟨?_, ?_, ?_⟩
  · unfold resolveRoles
    by_cases h : (cfg.media_magic && cfg.treat_bigger_as_original &&
        decide ((st.fs.statD work).size > (st.fs.statD orig).size)) = true
    · rw [if_pos h]
      simp only [Bool.and_eq_true, decide_eq_true_eq] at h
      exact iff_of_true rfl ⟨h.1.1, h.1.2, h.2⟩
    · rw [if_neg h]
      simp only [Bool.and_eq_true, decide_eq_true_eq, not_and] at h
      refine iff_of_false h1 ?_
      intro ⟨ha, hb, hc⟩
      exact h ⟨ha, hb⟩ hc
  · intro hm hs hgt
    have hc : (cfg.media_magic && cfg.skip_bigger &&
        decide ((st.fs.statD (resolveRoles cfg st.fs work orig).1).size >
          (st.fs.statD (resolveRoles cfg st.fs work orig).2).size)) = true := by
      rw [hm, hs]
      simpa using hgt
    simp only [affect]
    rw [if_neg h1, if_pos hc]
  · intro hcond st' hst
    rw [affect_unfold cfg st work orig h1 (by rw [hcond]; simp)] at hst
    rcases hwo : warningOf cfg st.fs work orig with _ | w <;> rw [hwo] at hst
    · rw [affectTail_none] at hst
      obtain ⟨sc, hra, hst'⟩ := affectAct_ok cfg _ _ _ _ 0 st' hst
      obtain ⟨hbook, hmem⟩ := runActions_ok cfg _ _ _ _ sc hra
      subst hst'
      refine ⟨sc.2, ?_, ?_⟩
      · show sc.1.changes ++ [sc.2] = st.changes ++ [sc.2]
        rw [hbook.2.2.1]
        rw [(dateRecon_book cfg st _ _ _).1.2.2.1]
      · rw [hmem]
        rw [dateRecon_sizemem]
        exact baseEntry_sizemem cfg st.fs work orig
    · by_cases hneg : cfg.neglect_warning = true
      · rw [affectTail_neglect cfg _ _ _ _ _ hneg] at hst
        obtain ⟨sc, hra, hst'⟩ := affectAct_ok cfg _ _ _ _ 1 st' hst
        obtain ⟨hbook, hmem⟩ := runActions_ok cfg _ _ _ _ sc hra
        subst hst'
        refine ⟨sc.2, ?_, ?_⟩
        · show sc.1.changes ++ [sc.2] = st.changes ++ [sc.2]
          rw [hbook.2.2.1]
          rw [(dateRecon_book cfg st _ _ _).1.2.2.1]
        · rw [hmem]
          rw [dateRecon_sizemem]
          exact baseEntry_sizemem cfg st.fs work orig
      · rw [Bool.not_eq_true] at hneg
        rw [affectTail_skip cfg _ _ _ _ _ hneg] at hst
        have hst2 := Except.ok.inj hst
        subst hst2
        refine ⟨(dateRecon cfg st (resolveRoles cfg st.fs work orig).1
            (resolveRoles cfg st.fs work orig).2
            (baseEntry cfg st.fs work orig)).2.add w Ann.skippedOnWarning, ?_, ?_⟩
        · show (dateRecon cfg st (resolveRoles cfg st.fs work orig).1
              (resolveRoles cfg st.fs work orig).2
              (baseEntry cfg st.fs work orig)).1.changes ++
            [(dateRecon cfg st (resolveRoles cfg st.fs work orig).1
              (resolveRoles cfg st.fs work orig).2
              (baseEntry cfg st.fs work orig)).2.add w Ann.skippedOnWarning] =
            st.changes ++
            [(dateRecon cfg st (resolveRoles cfg st.fs work orig).1
              (resolveRoles cfg st.fs work orig).2
              (baseEntry cfg st.fs work orig)).2.add w Ann.skippedOnWarning]
          rw [(dateRecon_book cfg st _ _ _).1.2.2.1]
        · rw [sizemem_add_ne _ _ _ _ (by intro h; cases h)]
          rw [dateRecon_sizemem]
          exact baseEntry_sizemem cfg st.fs work orig

/-- C3 witness: under `media_magic` with `treat_bigger_as_original` and a
strictly larger work file the roles swap; with `skip_bigger` instead, the
whole remediation is suppressed. -/
theorem c3_affect_roles_witness :
    (resolveRoles cfgC3w stC3w.fs "/w/r.jpg" "/o/r.jpg").1 = "/o/r.jpg" ∧
    affect { media_magic := true, skip_bigger := true } stC3w "/w/r.jpg" "/o/r.jpg" =
      .ok stC3w := by
  constructor
  · exact (c3_affect_roles cfgC3w stC3w "/w/r.jpg" "/o/r.jpg" (by decide)).1.mpr
      ⟨rfl, rfl, by decide⟩
  · exact (c3_affect_roles { media_magic := true, skip_bigger := true } stC3w
      "/w/r.jpg" "/o/r.jpg" (by decide)).2.1 rfl rfl (by decide)

theorem dispatch_some_false (cfg : Config) (st : DogState) (wf o : String)
    (cands : List String) (hinv : cfg.invert_selection = false) :
    dispatch cfg st wf (some o) cands = affect cfg st wf o := by
  unfold dispatch
  rw [hinv]

theorem dispatch_none_true (cfg : Config) (st : DogState) (wf : String)
    (cands : List String) (hinv : cfg.invert_selection = true) :
    dispatch cfg st wf none cands = affect cfg st wf "/dev/null" := by
  unfold dispatch
  rw [hinv]

theorem dispatch_some_true (cfg : Config) (st : DogState) (wf o : String)
    (cands : List String) (hinv : cfg.invert_selection = true) :
    dispatch cfg st wf (some o) cands =
      (if cands.length > 1 then
        .ok { st with having_multiple_candidates :=
          st.having_multiple_candidates ++ [(wf, cands)] }
      else .ok st) := by
  unfold dispatch
  rw [hinv]

theorem dispatch_none_false (cfg : Config) (st : DogState) (wf : String)
    (cands : List String) (hinv : cfg.invert_selection = false) :
    dispatch cfg st wf none cands =
      (if cands.length > 1 then
        .ok { st with having_multiple_candidates :=
          st.having_multiple_candidates ++ [(wf, cands)] }
      else .ok st) := by
  unfold dispatch
  rw [hinv]

theorem affect_hmc (cfg : Config) (st : DogState) (work orig : String) :
    ∀ st', affect cfg st work orig = .ok st' →
      st'.having_multiple_candidates = st.having_multiple_candidates := by
  intro st' h
  by_cases h1 : work = orig
  · simp only [affect] at h
    rw [if_pos h1] at h
    rw [← Except.ok.inj h]
  · by_cases hsk : (cfg.media_magic && cfg.skip_bigger &&
        decide ((st.fs.statD (resolveRoles cfg st.fs work orig).1).size >
          (st.fs.statD (resolveRoles cfg st.fs work orig).2).size)) = true
    · simp only [affect] at h
      rw [if_neg h1, if_pos hsk] at h
      rw [← Except.ok.inj h]
    · rw [affect_unfold cfg st work orig h1 hsk] at h
      rcases hwo : warningOf cfg st.fs work orig with _ | w
      · rw [hwo, affectTail_none] at h
        obtain ⟨sc, hra, hst'⟩ := affectAct_ok cfg _ _ _ _ 0 st' h
        obtain ⟨hbook, -⟩ := runActions_ok cfg _ _ _ _ sc hra
        subst hst'
        exact hbook.2.2.2.2.1.trans (dateRecon_book cfg st _ _ _).1.2.2.2.2.1
      · rw [hwo] at h
        by_cases hneg : cfg.neglect_warning = true
        · rw [affectTail_neglect cfg _ _ _ _ _ hneg] at h
          obtain ⟨sc, hra, hst'⟩ := affectAct_ok cfg _ _ _ _ 1 st' h
          obtain ⟨hbook, -⟩ := runActions_ok cfg _ _ _ _ sc hra
          subst hst'
          exact hbook.2.2.2.2.1.trans (dateRecon_book cfg st _ _ _).1.2.2.2.2.1
        · rw [Bool.not_eq_true] at hneg
          rw [affectTail_skip cfg _ _ _ _ _ hneg] at h
          have h2 := Except.ok.inj h
          subst h2
          exact (dateRecon_book cfg st _ _ _).1.2.2.2.2.1

/-- C4 (corrected, amended): for every work file whose dispatch returns, the
"multiple candidates" statistic records that file iff neither remediation
branch fired and the candidate set has size at least 2 — that is, iff NOT (a
match was found with invert_selection off) and NOT (no match was found with
invert_selection on), and candidates ≥ 2.  With invert_selection off this is
the claim's "no match found and ≥ 2 candidates"; with invert_selection on the
condition is inverted: a work file whose match WAS found among ≥ 2
candidates is recorded, and an unmatched one is not. -/
theorem c4_ambiguity (cfg : Config) (st : DogState) (wf : String)
    (original : Option String) (cands : List String) :
    ∀ st', dispatch cfg st wf original cands = .ok st' →
      (st'.having_multiple_candidates =
          st.having_multiple_candidates ++ [(wf, cands)] ↔
        ¬(original.isSome = true ∧ cfg.invert_selection = false) ∧
        ¬(original = none ∧ cfg.invert_selection = true) ∧ cands.length > 1) := by
  intro st' h
  rcases original with _ | o <;> cases hinv : cfg.invert_selection
  · rw [dispatch_none_false cfg st wf cands hinv] at h
    by_cases hlen : cands.length > 1
    · rw [if_pos hlen] at h
      have h2 := Except.ok.inj h
      subst h2
      exact iff_of_true rfl ⟨by simp, by simp [hinv], hlen⟩
    · rw [if_neg hlen] at h
      have h2 := Except.ok.inj h
      subst h2
      exact iff_of_false (list_ne_append_singleton _ _) (fun hh => hlen hh.2.2)
  · rw [dispatch_none_true cfg st wf cands hinv] at h
    have h2 := affect_hmc cfg st wf "/dev/null" st' h
    rw [h2]
    exact iff_of_false (list_ne_append_singleton _ _) (fun hh => hh.2.1 ⟨rfl, rfl⟩)
  · rw [dispatch_some_false cfg st wf o cands hinv] at h
    have h2 := affect_hmc cfg st wf o st' h
    rw [h2]
    exact iff_of_false (list_ne_append_singleton _ _) (fun hh => hh.1 ⟨rfl, rfl⟩)
  · rw [dispatch_some_true cfg st wf o cands hinv] at h
    by_cases hlen : cands.length > 1
    · rw [if_pos hlen] at h
      have h2 := Except.ok.inj h
      subst h2
      exact iff_of_true rfl ⟨by simp [hinv], by simp, hlen⟩
    · rw [if_neg hlen] at h
      have h2 := Except.ok.inj h
      subst h2
      exact iff_of_false (list_ne_append_singleton _ _) (fun hh => hlen hh.2.2)

/-- C4 witness: under `invert_selection` a matched work file with two
candidates is recorded under `having_multiple_candidates`. -/
theorem c4_ambiguity_witness :
    (({ fs := fsC4x, having_multiple_candidates := [("/w/a.jpg", listC4x)] } :
        DogState).having_multiple_candidates =
      ({ fs := fsC4x } : DogState).having_multiple_candidates ++
        [("/w/a.jpg", listC4x)]) :=
  (c4_ambiguity cfgC4x { fs := fsC4x } "/w/a.jpg" (some "/o/a.jpg") listC4x
    { fs := fsC4x, having_multiple_candidates := [("/w/a.jpg", listC4x)] }
    (by rfl)).mpr ⟨by decide, by decide, by decide⟩

/-- C4 counterexample: with `invert_selection=True` a work file whose match
WAS found (the matcher returns the first original) and that has two
candidates is recorded under `having_multiple_candidates` — refuting "records
that file iff no match was found and its candidate set has size at least
2". -/
theorem c4_counterexample :
    processFile cfgC4x listC4x { fs := fsC4x } "/w/a.jpg" =
      .ok { fs := fsC4x,
            having_multiple_candidates := [("/w/a.jpg", listC4x)] } ∧
    findSimilar cfgC4x fsC4x "/w/a.jpg" listC4x = some "/o/a.jpg" := by
  exact ⟨rfl, rfl⟩

/-- C10 (confirmed): under `invert_selection`, a work file with no match is
paired with the literal path `/dev/null`: the change entry's second key is
`/dev/null`, the date comparison of the affect step reads `/dev/null`'s stat
mtime, and when that mtime is at least a second newer than the work file's a
DATE WARNING fires and (warnings not neglected) the remediation is replaced
by the skipped annotation with counters untouched. -/
theorem c10_devnull (cfg : Config) (st : DogState) (wf : String)
    (hin : cfg.invert_selection = true) (hmed : cfg.media_magic = false)
    (h2 : cfg.set_both_to_older_date = false) (hneg : cfg.neglect_warning = false)
    (hwf : wf ≠ "/dev/null")
    (hgt : (st.fs.statD "/dev/null").mtime > (st.fs.statD wf).mtime)
    (hge : (st.fs.statD "/dev/null").mtime - (st.fs.statD wf).mtime ≥ 1) :
    (∀ cands, dispatch cfg st wf none cands = affect cfg st wf "/dev/null") ∧
    affect cfg st wf "/dev/null" =
      .ok { st with
            changes := st.changes ++
              [(affectEntry cfg st.fs wf "/dev/null").add "/dev/null"
                .skippedOnWarning],
            warning_count := st.warning_count + 1 } ∧
    ((affectEntry cfg st.fs wf "/dev/null").add "/dev/null"
      .skippedOnWarning).origPath = "/dev/null" ∧
    Ann.dateWarning ((st.fs.statD "/dev/null").mtime - (st.fs.statD wf).mtime) ∈
      ((affectEntry cfg st.fs wf "/dev/null").add "/dev/null"
        .skippedOnWarning).origAnns ∧
    Ann.skippedOnWarning ∈
      ((affectEntry cfg st.fs wf "/dev/null").add "/dev/null"
        .skippedOnWarning).origAnns := by
  have hroles : resolveRoles cfg st.fs wf "/dev/null" = (wf, "/dev/null") :=
    resolveRoles_nomedia cfg st.fs wf "/dev/null" hmed
  have hdw : dateWarnOf cfg st.fs (resolveRoles cfg st.fs wf "/dev/null").1
      (resolveRoles cfg st.fs wf "/dev/null").2 = some "/dev/null" := by
    rw [hroles]
    show dateWarnOf cfg st.fs wf "/dev/null" = some "/dev/null"
    unfold dateWarnOf
    rw [if_pos]
    rw [h2]
    simp only [Bool.not_false, Bool.true_and, Bool.and_eq_true, decide_eq_true_eq]
    exact ⟨⟨hgt.ne, hgt⟩, hge⟩
  have hwarn : warningOf cfg st.fs wf "/dev/null" = some "/dev/null" := by
    simp only [warningOf]
    rw [hdw]
  have hsk : ¬ ((cfg.media_magic && cfg.skip_bigger &&
      decide ((st.fs.statD (resolveRoles cfg st.fs wf "/dev/null").1).size >
        (st.fs.statD (resolveRoles cfg st.fs wf "/dev/null").2).size)) = true) := by
    rw [hmed]
    simp
  refine ⟨fun cands => dispatch_none_true cfg st wf cands hin, ?_, ?_, ?_, ?_⟩
  · rw [affect_unfold cfg st wf "/dev/null" hwf hsk,
      dateRecon_no_redate cfg st _ _ _ h2, hwarn, hdw]
    simp only [affectEntry]
    rw [hdw]
    rw [affectTail_skip cfg _ _ _ _ _ hneg]
  · exact (ChangeEntry.add_paths _ _ _).2.trans
      (affectEntry_paths cfg st.fs wf "/dev/null").2
  · rw [ChangeEntry.mem_add_orig]
    left
    simp only [affectEntry]
    rw [hdw, hroles]
    rw [ChangeEntry.mem_add_orig]
    right
    refine ⟨?_, ?_, rfl⟩
    · rw [(baseEntry_paths cfg st.fs wf "/dev/null").1]
      exact fun hh => hwf hh.symm
    · rw [(baseEntry_paths cfg st.fs wf "/dev/null").2]
  · rw [ChangeEntry.mem_add_orig]
    right
    refine ⟨?_, ?_, rfl⟩
    · rw [(affectEntry_paths cfg st.fs wf "/dev/null").1]
      exact fun hh => hwf hh.symm
    · rw [(affectEntry_paths cfg st.fs wf "/dev/null").2]

/-- C10 witness: a concrete inverted run where `/dev/null`'s mtime (500) is
490 seconds newer than the work file's (10): the pair is recorded against
`/dev/null`, date-warned by its timestamp and skipped on the warning. -/
theorem c10_devnull_witness :
    affect cfgC10w stC10w "/w/z.jpg" "/dev/null" =
      .ok { stC10w with
            changes := [(affectEntry cfgC10w fsC10w "/w/z.jpg" "/dev/null").add
              "/dev/null" .skippedOnWarning],
            warning_count := 1 } ∧
    Ann.dateWarning 490 ∈
      ((affectEntry cfgC10w fsC10w "/w/z.jpg" "/dev/null").add "/dev/null"
        .skippedOnWarning).origAnns := by
  have h := c10_devnull cfgC10w stC10w "/w/z.jpg" rfl rfl rfl rfl (by decide)
    (by decide) (by decide)
  exact ⟨h.2.1, h.2.2.2.1⟩

/-- C7 (corrected, amended): every work file whose name already bears the
reserved `✓` marker is skipped immediately, before any matching, and counted
in the separate ignored counter — so a file renamed in an earlier run is
never re-remediated; but a second run over the same directories may still
remediate files the first run left unmatched, because the first run's
`set_both_to_older_date` reconciliation can change an original's mtime and
create new matches. -/
theorem c7_marked_skip (cfg : Config) (fileList : List String) (st : DogState)
    (wf : String) (h : (pathName wf).data.head? = some '✓') :
    processFile cfg fileList st wf =
      .ok { st with ignored_count := st.ignored_count + 1 } := by
  simp only [processFile]
  rw [if_pos h]

/-- C7 witness: a `✓`-prefixed work file is counted as ignored and nothing
else changes. -/
theorem c7_marked_skip_witness :
    processFile cfgC7 [] { fs := [] } "/w/✓x.jpg" =
      .ok { fs := ([] : FS), ignored_count := 1 } :=
  c7_marked_skip cfgC7 [] { fs := [] } "/w/✓x.jpg" (by decide)

/-- C7 counterexample: in the `runC7a`/`runC7b` scenario (rename + redate,
execute mode) the first run remediates one file and redates the original;
the second run, on the same directories, remediates one MORE file (the one
the first run left unmatched, which now matches the redated original) while
correctly ignoring the `✓`-renamed file — refuting "running the engine twice
in execute mode on the same inputs produces no additional remediation on the
second run". -/
theorem c7_counterexample :
    runC7a.affected_count = 1 ∧ runC7b.affected_count = 1 ∧
    runC7b.ignored_count = 1 := by
  exact ⟨by decide, by decide, by decide⟩

end Dedup
